import Mathlib

/-!
# basekernel: syscall handlers and the user-space output buffer

A shallow embedding of `src/syscall_handler.c` (the handlers, among them
`sys_sbrk`, `sys_draw_create` and `sys_process_run`, and the dispatcher
`syscall_handler`) and of `src/userio.c` (`flush`, `printf_buffer`,
`printf_putchar`, `printf_putstring`), with theorems about them.

Conventions of the embedding.

* `unsigned int` / `uint32_t` values are natural numbers, every operation that
  can leave the 32-bit range is reduced modulo `2 ^ 32` explicitly.
* `int` values are integers; a sum of two `int`s is reduced to the signed
  32-bit range by `wrap32` (two's complement), the conversion between `int`
  and `unsigned int` is `toInt32` / `toUInt32`.
* `while` and `for` loops whose trip count is not bounded by a constant are
  functions with a fuel argument that return `none` when the fuel runs out.
* Constants, types and helper functions that the two source files use but do
  not define (`PAGE_SIZE`, `PROCESS_MAX_WINDOWS`, `ENOENT`, `ENOSYS`, the
  values of `syscall_t`, the page-table primitives, `graphics_create`,
  `elf_load`, the functions of the other kernel modules) are parameters of
  the definitions.
-/

namespace Basekernel

/-! ## Machine integers -/

/-- Conversion `unsigned int -> int` (two's complement reinterpretation). -/
def toInt32 (n : Nat) : Int :=
  if n % 2 ^ 32 < 2 ^ 31 then ((n % 2 ^ 32 : Nat) : Int) else ((n % 2 ^ 32 : Nat) : Int) - 2 ^ 32

/-- Conversion `int -> unsigned int` (reduction modulo `2 ^ 32`). -/
def toUInt32 (i : Int) : Nat := (i % 2 ^ 32).toNat

/-- Result of an `int` computation brought back to the signed 32-bit range. -/
def wrap32 (i : Int) : Int := toInt32 (toUInt32 i)

/-- Unsigned 32-bit subtraction `a - b`. -/
def usub32 (a b : Nat) : Nat := (a % 2 ^ 32 + 2 ^ 32 - b % 2 ^ 32) % 2 ^ 32

/-! ## Heap growth: `sys_sbrk` -/

/-- The page-table primitives `pagetable_getmap` and `pagetable_alloc` and the
two flag constants, which `syscall_handler.c` calls but does not define.
`getmap pt vaddr` is `some paddr` when `pagetable_getmap(pt, vaddr, &paddr)`
returns nonzero (storing `paddr`) and `none` when it returns zero;
`alloc pt vaddr length flags` is the page table after
`pagetable_alloc(pt, vaddr, length, flags)`. -/
structure PageOps (PT : Type) where
  getmap : PT → Nat → Option Nat
  alloc : PT → Nat → Nat → Nat → PT
  PAGE_FLAG_USER : Nat
  PAGE_FLAG_READWRITE : Nat

/-- The fields of `struct process` that the handlers use: the process id and
the id of the parent, the break pointer `brk` (an address), the page table,
the array `windows` of pointers to `struct graphics` (index to address, `0`
is the null pointer) with `window_count`, and the argument area that
`process_pass_arguments` fills. -/
structure Process (PT : Type) where
  pid : Int
  ppid : Int
  brk : Nat
  pagetable : PT
  windows : Nat → Nat
  window_count : Int
  argc : Int
  argv : List (List Nat)

/-- Local state of `sys_sbrk` while it walks the pages: the page table of the
current process, the local `vaddr`, and (instrumentation) the addresses that
have been passed to `pagetable_alloc` so far, oldest first. -/
structure SbrkWalk (PT : Type) where
  pagetable : PT
  vaddr : Nat
  allocs : List Nat

/-- The statement
`if (!pagetable_getmap(current->pagetable,vaddr,&paddr)) pagetable_alloc(...)`. -/
def sbrk_probe {PT : Type} (ops : PageOps PT) (PAGE_SIZE : Nat) (s : SbrkWalk PT) : SbrkWalk PT :=
  match ops.getmap s.pagetable s.vaddr with
  | some _ => s
  | none =>
    { s with
      pagetable := ops.alloc s.pagetable s.vaddr PAGE_SIZE
        (ops.PAGE_FLAG_USER ||| ops.PAGE_FLAG_READWRITE)
      allocs := s.allocs ++ [s.vaddr] }

/-- The loop `for (i=0; i < (unsigned int)a; i+=PAGE_SIZE) { probe; vaddr += PAGE_SIZE; }`
from the state in which the counter is `i`; `ua` is `(unsigned int)a`. -/
def sbrk_loop {PT : Type} (ops : PageOps PT) (PAGE_SIZE ua : Nat) :
    Nat → Nat → SbrkWalk PT → Option (SbrkWalk PT)
  | 0, _, _ => none
  | fuel + 1, i, s =>
    if i < ua then
      let s1 := sbrk_probe ops PAGE_SIZE s
      sbrk_loop ops PAGE_SIZE ua fuel ((i + PAGE_SIZE) % 2 ^ 32)
        { s1 with vaddr := (s1.vaddr + PAGE_SIZE) % 2 ^ 32 }
    else some s

/-- What a call of `sys_sbrk` leaves behind: the `int` it returns, the current
process, and the addresses it passed to `pagetable_alloc`, oldest first. -/
structure SbrkResult (PT : Type) where
  ret : Int
  proc : Process PT
  allocs : List Nat

/-- The function `sys_sbrk(int a)`. -/
def sys_sbrk {PT : Type} (ops : PageOps PT) (PAGE_SIZE : Nat) (fuel : Nat)
    (current : Process PT) (a : Int) : Option (SbrkResult PT) :=
  let vaddr := current.brk % 2 ^ 32
  match sbrk_loop ops PAGE_SIZE (toUInt32 a) fuel 0 ⟨current.pagetable, vaddr, []⟩ with
  | none => none
  | some s =>
    let s1 := sbrk_probe ops PAGE_SIZE s
    let vaddr1 := current.brk % 2 ^ 32
    some
      { ret := toInt32 vaddr1
        proc := { current with brk := toUInt32 ((current.brk : Int) + a), pagetable := s1.pagetable }
        allocs := s1.allocs }

/-- One trip through the body of the loop of `sys_sbrk`: the probe, then
`vaddr += PAGE_SIZE`. -/
def sbrk_body {PT : Type} (ops : PageOps PT) (PAGE_SIZE : Nat) (s : SbrkWalk PT) : SbrkWalk PT :=
  { sbrk_probe ops PAGE_SIZE s with
    vaddr := ((sbrk_probe ops PAGE_SIZE s).vaddr + PAGE_SIZE) % 2 ^ 32 }

/-- The body of the loop of `sys_sbrk` run `n` times. -/
def sbrk_steps {PT : Type} (ops : PageOps PT) (PAGE_SIZE : Nat) : Nat → SbrkWalk PT → SbrkWalk PT
  | 0, s => s
  | n + 1, s => sbrk_steps ops PAGE_SIZE n (sbrk_body ops PAGE_SIZE s)

/-- Number of trips through the loop of `sys_sbrk` that remain when the
counter is `i`. -/
def sbrk_trips (PAGE_SIZE ua i : Nat) : Nat := (ua - i + PAGE_SIZE - 1) / PAGE_SIZE

/-- Modelled from the spec: a page table for which `is_mapped(space, addr)`
and `map(space, addr, size, flags)` work on whole pages (the page-table
implementation is not part of these sources). It lists the mapped virtual
page numbers with the physical address given to each, newest first; a lookup
adds the offset inside the page. -/
def SimplePT : Type := List (Nat × Nat)

/-- Modelled from the spec: `is_mapped(space, addr)`, with the physical
address of `addr` when it is mapped. -/
def SimplePT.getmap (PAGE_SIZE : Nat) (pt : List (Nat × Nat)) (vaddr : Nat) : Option Nat :=
  match pt.lookup (vaddr / PAGE_SIZE) with
  | some frame => some (frame + vaddr % PAGE_SIZE)
  | none => none

/-- Modelled from the spec: `map(space, addr, size, flags)` gives a fresh
physical page to each of the `size / PAGE_SIZE` pages starting with the one
that contains `addr`, leaving a page that is mapped already as it is. -/
def SimplePT.alloc (PAGE_SIZE : Nat) (pt : List (Nat × Nat)) (vaddr length _flags : Nat) :
    List (Nat × Nat) :=
  (List.range (length / PAGE_SIZE)).foldl
    (fun acc k =>
      match acc.lookup (vaddr / PAGE_SIZE + k) with
      | some _ => acc
      | none => (vaddr / PAGE_SIZE + k, (acc.length + 1) * PAGE_SIZE) :: acc)
    pt

/-- Modelled from the spec: the page-table primitives over `SimplePT`. -/
def simpleOps (PAGE_SIZE : Nat) : PageOps (List (Nat × Nat)) where
  getmap := SimplePT.getmap PAGE_SIZE
  alloc := SimplePT.alloc PAGE_SIZE
  PAGE_FLAG_USER := 4
  PAGE_FLAG_READWRITE := 2

/-- A process with the break `brk` and the page table `pt`, without windows,
for the concrete inputs below. -/
def exampleProc (brk : Nat) (pt : List (Nat × Nat)) : Process (List (Nat × Nat)) where
  pid := 1
  ppid := 0
  brk := brk
  pagetable := pt
  windows := fun _ => 0
  window_count := 0
  argc := 0
  argv := []

/-- What the callers of the page-table primitives rely on: mappings are made
of whole pages, `pagetable_alloc` with length `PAGE_SIZE` maps the page that
contains the address it is given, and it leaves every existing mapping as it
is. -/
structure PageOps.Lawful {PT : Type} (ops : PageOps PT) (PAGE_SIZE : Nat) : Prop where
  page_granular : ∀ pt v x, x / PAGE_SIZE = v / PAGE_SIZE →
    (ops.getmap pt v).isSome = true → (ops.getmap pt x).isSome = true
  alloc_maps : ∀ pt v flags x, x / PAGE_SIZE = v / PAGE_SIZE →
    (ops.getmap (ops.alloc pt v PAGE_SIZE flags) x).isSome = true
  alloc_keeps : ∀ pt v flags x paddr, ops.getmap pt x = some paddr →
    ops.getmap (ops.alloc pt v PAGE_SIZE flags) x = some paddr

/-! ## Windows: `sys_draw_create` and `sys_process_run` -/

/-- The member `clip` of `struct graphics`. -/
structure Clip where
  x : Int
  y : Int
  w : Int
  h : Int
deriving DecidableEq

/-- The members of `struct graphics` that the handlers use: the clip rectangle
and the reference count `count`. The declaration of the struct is not part of
these sources, so the width of the counter is not known here and `count++` is
`+ 1` on an integer. -/
structure Graphics where
  clip : Clip
  count : Int
deriving DecidableEq

/-- The kernel state the window and process handlers work on: the process
`current`, the memory that holds the `struct graphics` objects (address to
object), and the processes that `process_launch` has put on the ready list,
oldest first. -/
structure Kernel (PT : Type) where
  current : Process PT
  graphics : Nat → Graphics
  ready : List (Process PT)

/-- The constants and functions that `syscall_handler.c` uses but does not
define. `graphics_create mem parent` is the memory after
`graphics_create(parent)` and the pointer it returns (`0` when it fails);
`elf_load path` is the process structure that `elf_load(path)` returns, `none`
for the null pointer. -/
structure KernelEnv (PT : Type) where
  ENOENT : Int
  PROCESS_MAX_WINDOWS : Nat
  graphics_create : (Nat → Graphics) → Nat → (Nat → Graphics) × Nat
  elf_load : List Nat → Option (Process PT)

/-- The assignment `g->clip.x = v` for the object at address `g`. -/
def set_clip_x (mem : Nat → Graphics) (g : Nat) (v : Int) : Nat → Graphics :=
  Function.update mem g { mem g with clip := { (mem g).clip with x := v } }

/-- The assignment `g->clip.y = v` for the object at address `g`. -/
def set_clip_y (mem : Nat → Graphics) (g : Nat) (v : Int) : Nat → Graphics :=
  Function.update mem g { mem g with clip := { (mem g).clip with y := v } }

/-- The assignment `g->clip.w = v` for the object at address `g`. -/
def set_clip_w (mem : Nat → Graphics) (g : Nat) (v : Int) : Nat → Graphics :=
  Function.update mem g { mem g with clip := { (mem g).clip with w := v } }

/-- The assignment `g->clip.h = v` for the object at address `g`. -/
def set_clip_h (mem : Nat → Graphics) (g : Nat) (v : Int) : Nat → Graphics :=
  Function.update mem g { mem g with clip := { (mem g).clip with h := v } }

/-- The function `sys_draw_create(int wd, int x, int y, int w, int h)`: the
value it returns and the kernel state it leaves. -/
def sys_draw_create {PT : Type} (env : KernelEnv PT) (k : Kernel PT) (wd x y w h : Int) :
    Int × Kernel PT :=
  let cur := k.current
  if decide (cur.window_count ≥ (env.PROCESS_MAX_WINDOWS : Int)) || decide (wd < 0)
      || decide (wd ≥ cur.window_count)
      || decide ((k.graphics (cur.windows wd.toNat)).clip.w < wrap32 (x + w))
      || decide ((k.graphics (cur.windows wd.toNat)).clip.h < wrap32 (y + h)) then
    (env.ENOENT, k)
  else
    let created := env.graphics_create k.graphics (cur.windows wd.toNat)
    let cur1 := { cur with
      windows := Function.update cur.windows cur.window_count.toNat created.2 }
    let g1 := created.1
    if cur1.windows cur1.window_count.toNat = 0 then
      (env.ENOENT, { k with current := cur1, graphics := g1 })
    else
      let g2 := set_clip_x g1 (cur1.windows cur1.window_count.toNat)
        (wrap32 (x + (g1 (cur1.windows wd.toNat)).clip.x))
      let g3 := set_clip_y g2 (cur1.windows cur1.window_count.toNat)
        (wrap32 (y + (g2 (cur1.windows wd.toNat)).clip.y))
      let g4 := set_clip_w g3 (cur1.windows cur1.window_count.toNat) w
      let g5 := set_clip_h g4 (cur1.windows cur1.window_count.toNat) h
      (cur1.window_count,
        { k with
          current := { cur1 with window_count := wrap32 (cur1.window_count + 1) }
          graphics := g5 })

/-- Modelled from the spec: `process_pass_arguments(p, argv, argc)`, which is
not part of these sources, copies the supplied argument vector into the
argument area of the new process. -/
def process_pass_arguments {PT : Type} (p : Process PT) (argv : List (List Nat)) (argc : Int) :
    Process PT :=
  { p with argc := argc, argv := argv.take argc.toNat }

/-- Modelled from the spec: `process_getpid()`, which is not part of these
sources, returns the id of the calling process. -/
def process_getpid {PT : Type} (k : Kernel PT) : Int := k.current.pid

/-- Modelled from the spec: `process_launch(p)`, which is not part of these
sources, admits the process to the ready set of the scheduler. -/
def process_launch {PT : Type} (k : Kernel PT) (p : Process PT) : Kernel PT :=
  { k with ready := k.ready ++ [p] }

/-- The statement `windows[i]->count++`. -/
def retain_window (windows : Nat → Nat) (mem : Nat → Graphics) (i : Nat) : Nat → Graphics :=
  Function.update mem (windows i) { mem (windows i) with count := (mem (windows i)).count + 1 }

/-- The loop `for(i=0;i<p->window_count;i++) p->windows[i]->count++;`, which
runs `window_count` times (not at all for a count that is not positive). -/
def retain_windows (windows : Nat → Nat) (window_count : Int) (mem : Nat → Graphics) :
    Nat → Graphics :=
  (List.range window_count.toNat).foldl (retain_window windows) mem

/-- The function `sys_process_run(path, argv, argc)`: the value it returns and
the kernel state it leaves. `memcpy(p->windows, current->windows,
sizeof(p->windows))` copies the `PROCESS_MAX_WINDOWS` entries of the array. -/
def sys_process_run {PT : Type} (env : KernelEnv PT) (k : Kernel PT) (path : List Nat)
    (argv : List (List Nat)) (argc : Int) : Int × Kernel PT :=
  match env.elf_load path with
  | none => (env.ENOENT, k)
  | some p =>
    let p1 := { p with
      windows := fun i => if i < env.PROCESS_MAX_WINDOWS then k.current.windows i else p.windows i }
    let p2 := { p1 with window_count := k.current.window_count }
    let g1 := retain_windows p2.windows p2.window_count k.graphics
    let p3 := process_pass_arguments p2 argv argc
    let p4 := { p3 with ppid := process_getpid k }
    let k1 := process_launch { k with graphics := g1 } p4
    (p4.pid, k1)

/-- Modelled from the spec: a window-surface registry for the concrete inputs
below, whose create puts the new surface, a copy of its parent with one
holder, at the address after the parent. -/
def simpleCreate (mem : Nat → Graphics) (parent : Nat) : (Nat → Graphics) × Nat :=
  (Function.update mem (parent + 1) { clip := (mem parent).clip, count := 1 }, parent + 1)

/-- A surface registry that is out of memory: create fails. -/
def failingCreate (mem : Nat → Graphics) (_parent : Nat) : (Nat → Graphics) × Nat := (mem, 0)

/-- An environment for the concrete inputs below: five windows per process,
`ENOENT` is `-2`, the loader knows the one path `[47]` (the string "/"). -/
def exampleEnv (create : (Nat → Graphics) → Nat → (Nat → Graphics) × Nat) :
    KernelEnv (List (Nat × Nat)) where
  ENOENT := -2
  PROCESS_MAX_WINDOWS := 5
  graphics_create := create
  elf_load := fun path =>
    if path = [47] then
      some { pid := 7, ppid := 0, brk := 2147483648, pagetable := [], windows := fun _ => 0,
             window_count := 0, argc := 0, argv := [] }
    else none

/-- A kernel state for the concrete inputs below: the current process has one
window, the surface at address 1 with the clip rectangle `(10, 20, 100, 50)`
and one holder. -/
def exampleKernel : Kernel (List (Nat × Nat)) where
  current :=
    { pid := 3, ppid := 1, brk := 2147483648, pagetable := []
      windows := fun i => if i = 0 then 1 else 0
      window_count := 1, argc := 0, argv := [] }
  graphics := fun q => if q = 1 then ⟨⟨10, 20, 100, 50⟩, 1⟩ else ⟨⟨0, 0, 0, 0⟩, 0⟩
  ready := []

/-! ## The output buffer of `userio.c` -/

/-- The static variables of `userio.c`: the array `stdio_buffer` (index to
byte) and `stdio_buffer_index`, with (instrumentation) the texts that have been
passed to `debug`, oldest first. -/
structure Stdio where
  stdio_buffer : Nat → Nat
  stdio_buffer_index : Nat
  debug_out : List (List Nat)

/-- The initial values `stdio_buffer[PAGE_SIZE] = {0}` and
`stdio_buffer_index = 0`. -/
def Stdio.init : Stdio := ⟨fun _ => 0, 0, []⟩

/-- The null-terminated string that starts at index `i` of `mem`, as `debug`
reads it; `n` bounds the number of bytes read (the size of the array). -/
def cstring (mem : Nat → Nat) : Nat → Nat → List Nat
  | _, 0 => []
  | i, n + 1 => if mem i = 0 then [] else mem i :: cstring mem (i + 1) n

/-- The function `flush()`. -/
def flush (PAGE_SIZE : Nat) (st : Stdio) : Stdio :=
  { stdio_buffer := Function.update st.stdio_buffer 0 0
    stdio_buffer_index := 0
    debug_out := st.debug_out ++ [cstring st.stdio_buffer 0 PAGE_SIZE] }

/-- The call `memcpy(dst + off, src, l)`, the source being the bytes `src`. -/
def memcpy (dst : Nat → Nat) (off : Nat) (src : List Nat) (l : Nat) : Nat → Nat :=
  fun i => if off ≤ i ∧ i < off + l then src.getD (i - off) 0 else dst i

/-- The loop `while (len) { ... }` of `printf_buffer` (for `2 <= PAGE_SIZE`,
so that the divisor `PAGE_SIZE - 1` is not zero). -/
def printf_buffer_loop (PAGE_SIZE : Nat) : Nat → Stdio → List Nat → Nat → Option Stdio
  | 0, _, _, _ => none
  | fuel + 1, st, s, len =>
    if len = 0 then some st
    else
      let l := len % (PAGE_SIZE - 1)
      let st1 :=
        if l > usub32 (usub32 PAGE_SIZE st.stdio_buffer_index) 1 then flush PAGE_SIZE st else st
      let st2 := { st1 with
        stdio_buffer := memcpy st1.stdio_buffer st1.stdio_buffer_index s l
        stdio_buffer_index := (st1.stdio_buffer_index + l) % 2 ^ 32 }
      printf_buffer_loop PAGE_SIZE fuel st2 s (len - l)

/-- The function `printf_buffer(char *s, unsigned len)`. -/
def printf_buffer (PAGE_SIZE fuel : Nat) (st : Stdio) (s : List Nat) (len : Nat) : Option Stdio :=
  match printf_buffer_loop PAGE_SIZE fuel st s len with
  | none => none
  | some st1 =>
    some { st1 with
      stdio_buffer := Function.update st1.stdio_buffer st1.stdio_buffer_index 0 }

/-- The function `printf_putchar(char c)`; the character `'\n'` is 10. -/
def printf_putchar (PAGE_SIZE fuel : Nat) (st : Stdio) (c : Nat) : Option Stdio :=
  match printf_buffer PAGE_SIZE fuel st [c] 1 with
  | none => none
  | some st1 => some (if c = 10 then flush PAGE_SIZE st1 else st1)

/-- The function `strlen` on the bytes at `s`, which a null byte follows. -/
def strlen (s : List Nat) : Nat := (s.takeWhile (fun b => b ≠ 0)).length

/-- The function `printf_putstring(char *s)`. -/
def printf_putstring (PAGE_SIZE fuel : Nat) (st : Stdio) (s : List Nat) : Option Stdio :=
  printf_buffer PAGE_SIZE fuel st s (strlen s % 2 ^ 32)

/-- The bytes staged in the output buffer:
`stdio_buffer[0 .. stdio_buffer_index)`. -/
def staged (st : Stdio) : List Nat := (List.range st.stdio_buffer_index).map st.stdio_buffer

/-- The invariant of the output buffer: the cursor is at most `PAGE_SIZE - 1`
and the byte at the cursor is the null terminator. -/
def StdioInv (PAGE_SIZE : Nat) (st : Stdio) : Prop :=
  st.stdio_buffer_index ≤ PAGE_SIZE - 1 ∧ st.stdio_buffer st.stdio_buffer_index = 0

/-! ## The dispatcher `syscall_handler` -/

/-- The values of the enumeration `syscall_t` that the switch of
`syscall_handler` names; `syscall.h`, which declares them, is not part of
these sources. -/
structure SyscallNumbers where
  SYSCALL_EXIT : Nat
  SYSCALL_DEBUG : Nat
  SYSCALL_YIELD : Nat
  SYSCALL_OPEN : Nat
  SYSCALL_READ : Nat
  SYSCALL_WRITE : Nat
  SYSCALL_LSEEK : Nat
  SYSCALL_SBRK : Nat
  SYSCALL_CLOSE : Nat
  SYSCALL_KEYBOARD_READ_CHAR : Nat
  SYSCALL_DRAW_CREATE : Nat
  SYSCALL_DRAW_WRITE : Nat
  SYSCALL_SLEEP : Nat
  SYSCALL_GETTIMEOFDAY : Nat
  SYSCALL_PROCESS_SELF : Nat
  SYSCALL_PROCESS_PARENT : Nat
  SYSCALL_PROCESS_RUN : Nat
  SYSCALL_PROCESS_KILL : Nat
  SYSCALL_PROCESS_WAIT : Nat
  SYSCALL_PROCESS_REAP : Nat

/-- A call of one of the handlers with its typed arguments (pointers are
addresses). The dispatcher logs the calls it makes. -/
inductive HandlerCall where
  | sys_exit (status : Int)
  | sys_debug (str : Nat)
  | sys_yield
  | sys_open (path : Nat) (mode flags : Int)
  | sys_read (fd : Int) (data : Nat) (length : Int)
  | sys_write (fd : Int) (data : Nat) (length : Int)
  | sys_lseek (fd offset whence : Int)
  | sys_sbrk (a : Int)
  | sys_close (fd : Int)
  | sys_keyboard_read_char
  | sys_draw_create (wd x y w h : Int)
  | sys_draw_write (s : Nat)
  | sys_sleep (ms : Nat)
  | sys_gettimeofday
  | sys_process_self
  | sys_process_parent
  | sys_process_run (path argv : Nat) (argc : Int)
  | sys_process_kill (pid : Int)
  | sys_process_wait (info : Nat) (timeout : Int)
  | sys_process_reap (pid : Int)
deriving DecidableEq

/-- The constant `ENOSYS` and the functions of other kernel modules that the
handlers call, none of them part of these sources, as functions of the kernel
state; `string_at` and `argv_at` read the string and the argument vector that
a pointer argument points to. -/
structure Externals (PT : Type) where
  ENOSYS : Int
  console_printf : List Nat → Kernel PT → Kernel PT
  process_exit : Int → Kernel PT → Kernel PT
  process_yield : Kernel PT → Kernel PT
  keyboard_read : Kernel PT → Int × Kernel PT
  graphics_write : Nat → Kernel PT → Int × Kernel PT
  clock_wait : Nat → Kernel PT → Kernel PT
  rtc_read : Kernel PT → Nat
  rtc_time_to_timestamp : Nat → Nat
  process_kill : Int → Kernel PT → Int × Kernel PT
  process_wait_child : Nat → Int → Kernel PT → Int × Kernel PT
  process_reap : Int → Kernel PT → Int × Kernel PT
  string_at : Kernel PT → Nat → List Nat
  argv_at : Kernel PT → Nat → List (List Nat)

/-- Modelled from the spec: `process_getppid()`, which is not part of these
sources, returns the id of the parent of the calling process. -/
def process_getppid {PT : Type} (k : Kernel PT) : Int := k.current.ppid

/-- The function `sys_debug(const char *str)`. -/
def sys_debug {PT : Type} (ext : Externals PT) (k : Kernel PT) (str : Nat) : Int × Kernel PT :=
  (0, ext.console_printf (ext.string_at k str) k)

/-- The function `sys_exit(int status)`. -/
def sys_exit {PT : Type} (ext : Externals PT) (k : Kernel PT) (status : Int) : Int × Kernel PT :=
  (0, ext.process_exit status k)

/-- The function `sys_yield()`. -/
def sys_yield {PT : Type} (ext : Externals PT) (k : Kernel PT) : Int × Kernel PT :=
  (0, ext.process_yield k)

/-- The function `sys_gettimeofday()`, which returns a `uint32_t`. -/
def sys_gettimeofday {PT : Type} (ext : Externals PT) (k : Kernel PT) : Nat :=
  ext.rtc_time_to_timestamp (ext.rtc_read k) % 2 ^ 32

/-- The function `sys_open(path, mode, flags)`. -/
def sys_open {PT : Type} (ext : Externals PT) (_path : Nat) (_mode _flags : Int) : Int :=
  ext.ENOSYS

/-- The function `sys_keyboard_read_char()`. -/
def sys_keyboard_read_char {PT : Type} (ext : Externals PT) (k : Kernel PT) : Int × Kernel PT :=
  ext.keyboard_read k

/-- The function `sys_read(fd, data, length)`. -/
def sys_read {PT : Type} (ext : Externals PT) (_fd : Int) (_data : Nat) (_length : Int) : Int :=
  ext.ENOSYS

/-- The function `sys_write(fd, data, length)`. -/
def sys_write {PT : Type} (ext : Externals PT) (_fd : Int) (_data : Nat) (_length : Int) : Int :=
  ext.ENOSYS

/-- The function `sys_lseek(fd, offset, whence)`. -/
def sys_lseek {PT : Type} (ext : Externals PT) (_fd _offset _whence : Int) : Int :=
  ext.ENOSYS

/-- The function `sys_close(fd)`. -/
def sys_close {PT : Type} (ext : Externals PT) (_fd : Int) : Int :=
  ext.ENOSYS

/-- The function `sys_draw_write(struct graphics_command *s)`. -/
def sys_draw_write {PT : Type} (ext : Externals PT) (k : Kernel PT) (s : Nat) : Int × Kernel PT :=
  ext.graphics_write s k

/-- The function `sys_sleep(unsigned int ms)`. -/
def sys_sleep {PT : Type} (ext : Externals PT) (k : Kernel PT) (ms : Nat) : Int × Kernel PT :=
  (0, ext.clock_wait ms k)

/-- The function `sys_process_self()`. -/
def sys_process_self {PT : Type} (k : Kernel PT) : Int := process_getpid k

/-- The function `sys_process_parent()`. -/
def sys_process_parent {PT : Type} (k : Kernel PT) : Int := process_getppid k

/-- The function `sys_process_kill(int pid)`. -/
def sys_process_kill {PT : Type} (ext : Externals PT) (k : Kernel PT) (pid : Int) :
    Int × Kernel PT :=
  ext.process_kill pid k

/-- The function `sys_process_wait(struct process_info *info, int timeout)`. -/
def sys_process_wait {PT : Type} (ext : Externals PT) (k : Kernel PT) (info : Nat)
    (timeout : Int) : Int × Kernel PT :=
  ext.process_wait_child info timeout k

/-- The function `sys_process_reap(int pid)`. -/
def sys_process_reap {PT : Type} (ext : Externals PT) (k : Kernel PT) (pid : Int) :
    Int × Kernel PT :=
  ext.process_reap pid k

/-- Everything `syscall_handler` depends on that these sources do not fix. -/
structure Config (PT : Type) where
  nums : SyscallNumbers
  ext : Externals PT
  env : KernelEnv PT
  ops : PageOps PT
  PAGE_SIZE : Nat

/-- The kernel state with the log of the handler calls that the dispatcher has
made, oldest first. -/
structure Machine (PT : Type) where
  kernel : Kernel PT
  calls : List HandlerCall

/-- The handler call `call` run on the kernel state `k`: the value that the
`return` statement of `syscall_handler` converts to `int32_t`, and the state
the handler leaves; `none` when the handler does not return. -/
def run_handler {PT : Type} (cfg : Config PT) (fuel : Nat) (k : Kernel PT) :
    HandlerCall → Option (Int × Kernel PT)
  | .sys_exit status => some (sys_exit cfg.ext k status)
  | .sys_debug str => some (sys_debug cfg.ext k str)
  | .sys_yield => some (sys_yield cfg.ext k)
  | .sys_open path mode flags => some (sys_open cfg.ext path mode flags, k)
  | .sys_read fd data length => some (sys_read cfg.ext fd data length, k)
  | .sys_write fd data length => some (sys_write cfg.ext fd data length, k)
  | .sys_lseek fd offset whence => some (sys_lseek cfg.ext fd offset whence, k)
  | .sys_sbrk a =>
    match sys_sbrk cfg.ops cfg.PAGE_SIZE fuel k.current a with
    | none => none
    | some r => some (r.ret, { k with current := r.proc })
  | .sys_close fd => some (sys_close cfg.ext fd, k)
  | .sys_keyboard_read_char => some (sys_keyboard_read_char cfg.ext k)
  | .sys_draw_create wd x y w h => some (sys_draw_create cfg.env k wd x y w h)
  | .sys_draw_write s => some (sys_draw_write cfg.ext k s)
  | .sys_sleep ms => some (sys_sleep cfg.ext k ms)
  | .sys_gettimeofday => some (toInt32 (sys_gettimeofday cfg.ext k), k)
  | .sys_process_self => some (sys_process_self k, k)
  | .sys_process_parent => some (sys_process_parent k, k)
  | .sys_process_run path argv argc =>
    some (sys_process_run cfg.env k (cfg.ext.string_at k path) (cfg.ext.argv_at k argv) argc)
  | .sys_process_kill pid => some (sys_process_kill cfg.ext k pid)
  | .sys_process_wait info timeout => some (sys_process_wait cfg.ext k info timeout)
  | .sys_process_reap pid => some (sys_process_reap cfg.ext k pid)

/-- One `case` of the switch: the handler is called, which the log records,
and its result is returned. -/
def invoke {PT : Type} (cfg : Config PT) (fuel : Nat) (m : Machine PT) (call : HandlerCall) :
    Option (Int × Machine PT) :=
  match run_handler cfg fuel m.kernel call with
  | none => none
  | some (r, k) => some (r, { kernel := k, calls := m.calls ++ [call] })

/-- The function `syscall_handler(n, a, b, c, d, e)`. The arguments are
`uint32_t` words; where a handler takes an `int` the word is converted. -/
def syscall_handler {PT : Type} (cfg : Config PT) (fuel : Nat) (m : Machine PT)
    (n a b c d e : Nat) : Option (Int × Machine PT) :=
  if n = cfg.nums.SYSCALL_EXIT then invoke cfg fuel m (.sys_exit (toInt32 a))
  else if n = cfg.nums.SYSCALL_DEBUG then invoke cfg fuel m (.sys_debug a)
  else if n = cfg.nums.SYSCALL_YIELD then invoke cfg fuel m .sys_yield
  else if n = cfg.nums.SYSCALL_OPEN then invoke cfg fuel m (.sys_open a (toInt32 b) (toInt32 c))
  else if n = cfg.nums.SYSCALL_READ then invoke cfg fuel m (.sys_read (toInt32 a) b (toInt32 c))
  else if n = cfg.nums.SYSCALL_WRITE then invoke cfg fuel m (.sys_write (toInt32 a) b (toInt32 c))
  else if n = cfg.nums.SYSCALL_LSEEK then
    invoke cfg fuel m (.sys_lseek (toInt32 a) (toInt32 b) (toInt32 c))
  else if n = cfg.nums.SYSCALL_SBRK then invoke cfg fuel m (.sys_sbrk (toInt32 a))
  else if n = cfg.nums.SYSCALL_CLOSE then invoke cfg fuel m (.sys_close (toInt32 a))
  else if n = cfg.nums.SYSCALL_KEYBOARD_READ_CHAR then invoke cfg fuel m .sys_keyboard_read_char
  else if n = cfg.nums.SYSCALL_DRAW_CREATE then
    invoke cfg fuel m
      (.sys_draw_create (toInt32 a) (toInt32 b) (toInt32 c) (toInt32 d) (toInt32 e))
  else if n = cfg.nums.SYSCALL_DRAW_WRITE then invoke cfg fuel m (.sys_draw_write a)
  else if n = cfg.nums.SYSCALL_SLEEP then invoke cfg fuel m (.sys_sleep a)
  else if n = cfg.nums.SYSCALL_GETTIMEOFDAY then invoke cfg fuel m .sys_gettimeofday
  else if n = cfg.nums.SYSCALL_PROCESS_SELF then invoke cfg fuel m .sys_process_self
  else if n = cfg.nums.SYSCALL_PROCESS_PARENT then invoke cfg fuel m .sys_process_parent
  else if n = cfg.nums.SYSCALL_PROCESS_RUN then
    invoke cfg fuel m (.sys_process_run a b (toInt32 c))
  else if n = cfg.nums.SYSCALL_PROCESS_KILL then invoke cfg fuel m (.sys_process_kill (toInt32 a))
  else if n = cfg.nums.SYSCALL_PROCESS_WAIT then
    invoke cfg fuel m (.sys_process_wait a (toInt32 b))
  else if n = cfg.nums.SYSCALL_PROCESS_REAP then invoke cfg fuel m (.sys_process_reap (toInt32 a))
  else some (-1, m)

/-- The twenty declared call identifiers. -/
def declared_ids (nums : SyscallNumbers) : List Nat :=
  [nums.SYSCALL_EXIT, nums.SYSCALL_DEBUG, nums.SYSCALL_YIELD, nums.SYSCALL_OPEN,
   nums.SYSCALL_READ, nums.SYSCALL_WRITE, nums.SYSCALL_LSEEK, nums.SYSCALL_SBRK,
   nums.SYSCALL_CLOSE, nums.SYSCALL_KEYBOARD_READ_CHAR, nums.SYSCALL_DRAW_CREATE,
   nums.SYSCALL_DRAW_WRITE, nums.SYSCALL_SLEEP, nums.SYSCALL_GETTIMEOFDAY,
   nums.SYSCALL_PROCESS_SELF, nums.SYSCALL_PROCESS_PARENT, nums.SYSCALL_PROCESS_RUN,
   nums.SYSCALL_PROCESS_KILL, nums.SYSCALL_PROCESS_WAIT, nums.SYSCALL_PROCESS_REAP]

/-- The dispatch table as the specification declares it: for each call
identifier the handler and the argument words it receives, in their declared
positions. -/
def declared_table (nums : SyscallNumbers) (a b c d e : Nat) : List (Nat × HandlerCall) :=
  [(nums.SYSCALL_EXIT, .sys_exit (toInt32 a)),
   (nums.SYSCALL_DEBUG, .sys_debug a),
   (nums.SYSCALL_YIELD, .sys_yield),
   (nums.SYSCALL_OPEN, .sys_open a (toInt32 b) (toInt32 c)),
   (nums.SYSCALL_READ, .sys_read (toInt32 a) b (toInt32 c)),
   (nums.SYSCALL_WRITE, .sys_write (toInt32 a) b (toInt32 c)),
   (nums.SYSCALL_LSEEK, .sys_lseek (toInt32 a) (toInt32 b) (toInt32 c)),
   (nums.SYSCALL_SBRK, .sys_sbrk (toInt32 a)),
   (nums.SYSCALL_CLOSE, .sys_close (toInt32 a)),
   (nums.SYSCALL_KEYBOARD_READ_CHAR, .sys_keyboard_read_char),
   (nums.SYSCALL_DRAW_CREATE,
     .sys_draw_create (toInt32 a) (toInt32 b) (toInt32 c) (toInt32 d) (toInt32 e)),
   (nums.SYSCALL_DRAW_WRITE, .sys_draw_write a),
   (nums.SYSCALL_SLEEP, .sys_sleep a),
   (nums.SYSCALL_GETTIMEOFDAY, .sys_gettimeofday),
   (nums.SYSCALL_PROCESS_SELF, .sys_process_self),
   (nums.SYSCALL_PROCESS_PARENT, .sys_process_parent),
   (nums.SYSCALL_PROCESS_RUN, .sys_process_run a b (toInt32 c)),
   (nums.SYSCALL_PROCESS_KILL, .sys_process_kill (toInt32 a)),
   (nums.SYSCALL_PROCESS_WAIT, .sys_process_wait a (toInt32 b)),
   (nums.SYSCALL_PROCESS_REAP, .sys_process_reap (toInt32 a))]

/-- The handler call that a table declares for the identifier `n`. -/
def declared_handler : List (Nat × HandlerCall) → Nat → Option HandlerCall
  | [], _ => none
  | (k, call) :: rest, n => if n = k then some call else declared_handler rest n

/-- Call identifiers for the concrete inputs below, numbered in the order of
the switch. -/
def exampleNums : SyscallNumbers where
  SYSCALL_EXIT := 0
  SYSCALL_DEBUG := 1
  SYSCALL_YIELD := 2
  SYSCALL_OPEN := 3
  SYSCALL_READ := 4
  SYSCALL_WRITE := 5
  SYSCALL_LSEEK := 6
  SYSCALL_SBRK := 7
  SYSCALL_CLOSE := 8
  SYSCALL_KEYBOARD_READ_CHAR := 9
  SYSCALL_DRAW_CREATE := 10
  SYSCALL_DRAW_WRITE := 11
  SYSCALL_SLEEP := 12
  SYSCALL_GETTIMEOFDAY := 13
  SYSCALL_PROCESS_SELF := 14
  SYSCALL_PROCESS_PARENT := 15
  SYSCALL_PROCESS_RUN := 16
  SYSCALL_PROCESS_KILL := 17
  SYSCALL_PROCESS_WAIT := 18
  SYSCALL_PROCESS_REAP := 19

/-- Other kernel modules for the concrete inputs below: they leave the kernel
state alone and return 0, `ENOSYS` is `-1`, and the clock reads `timestamp`. -/
def exampleExt (timestamp : Nat) : Externals (List (Nat × Nat)) where
  ENOSYS := -1
  console_printf := fun _ k => k
  process_exit := fun _ k => k
  process_yield := fun k => k
  keyboard_read := fun k => (0, k)
  graphics_write := fun _ k => (0, k)
  clock_wait := fun _ k => k
  rtc_read := fun _ => timestamp
  rtc_time_to_timestamp := fun t => t
  process_kill := fun _ k => (0, k)
  process_wait_child := fun _ _ k => (0, k)
  process_reap := fun _ k => (0, k)
  string_at := fun _ _ => [47]
  argv_at := fun _ _ => []

/-- A configuration for the concrete inputs below: page size 4096. -/
def exampleConfig (timestamp : Nat) : Config (List (Nat × Nat)) where
  nums := exampleNums
  ext := exampleExt timestamp
  env := exampleEnv simpleCreate
  ops := simpleOps 4096
  PAGE_SIZE := 4096

/-- A machine state for the concrete inputs below: `exampleKernel`, whose
current process has the break `0x80000000`, and an empty log. -/
def exampleMachine : Machine (List (Nat × Nat)) where
  kernel := exampleKernel
  calls := []

/-! ## Accesses to the window table -/

/-- An access to the array `windows` of a process, at the index `i`. -/
inductive WinAccess where
  | read (i : Int)
  | write (i : Int)
deriving DecidableEq

/-- The function `sys_draw_create` together with the accesses it makes to
`current->windows`, in the order of the source text; the operands of `||` are
evaluated from left to right until one of them is true. -/
def sys_draw_create_traced {PT : Type} (env : KernelEnv PT) (k : Kernel PT)
    (wd x y w h : Int) : (Int × Kernel PT) × List WinAccess :=
  let cur := k.current
  if cur.window_count ≥ (env.PROCESS_MAX_WINDOWS : Int) then ((env.ENOENT, k), [])
  else if wd < 0 then ((env.ENOENT, k), [])
  else if wd ≥ cur.window_count then ((env.ENOENT, k), [])
  else if (k.graphics (cur.windows wd.toNat)).clip.w < wrap32 (x + w) then
    ((env.ENOENT, k), [.read wd])
  else if (k.graphics (cur.windows wd.toNat)).clip.h < wrap32 (y + h) then
    ((env.ENOENT, k), [.read wd, .read wd])
  else
    let created := env.graphics_create k.graphics (cur.windows wd.toNat)
    let cur1 : Process PT := { cur with
      windows := Function.update cur.windows cur.window_count.toNat created.2 }
    let g1 := created.1
    let upto138 : List WinAccess :=
      [.read wd, .read wd, .read wd, .write cur.window_count, .read cur.window_count]
    if cur1.windows cur1.window_count.toNat = 0 then
      ((env.ENOENT, { k with current := cur1, graphics := g1 }), upto138)
    else
      let g2 := set_clip_x g1 (cur1.windows cur1.window_count.toNat)
        (wrap32 (x + (g1 (cur1.windows wd.toNat)).clip.x))
      let g3 := set_clip_y g2 (cur1.windows cur1.window_count.toNat)
        (wrap32 (y + (g2 (cur1.windows wd.toNat)).clip.y))
      let g4 := set_clip_w g3 (cur1.windows cur1.window_count.toNat) w
      let g5 := set_clip_h g4 (cur1.windows cur1.window_count.toNat) h
      ((cur1.window_count,
        { k with
          current := { cur1 with window_count := wrap32 (cur1.window_count + 1) }
          graphics := g5 }),
       upto138 ++
        [.read cur.window_count, .read wd, .read cur.window_count, .read wd,
         .read cur.window_count, .read cur.window_count])

/-- The loop `for(i=0;i<p->window_count;i++) p->windows[i]->count++;` together
with the accesses it makes to `p->windows`. -/
def retain_windows_traced (windows : Nat → Nat) (window_count : Int) (mem : Nat → Graphics) :
    (Nat → Graphics) × List WinAccess :=
  (List.range window_count.toNat).foldl
    (fun acc i => (retain_window windows acc.1 i, acc.2 ++ [.read (i : Int)])) (mem, [])

/-- The function `sys_process_run` together with the accesses that its
reference-count loop makes to the window table of the new process. -/
def sys_process_run_traced {PT : Type} (env : KernelEnv PT) (k : Kernel PT) (path : List Nat)
    (argv : List (List Nat)) (argc : Int) : (Int × Kernel PT) × List WinAccess :=
  match env.elf_load path with
  | none => ((env.ENOENT, k), [])
  | some p =>
    let p1 := { p with
      windows := fun i => if i < env.PROCESS_MAX_WINDOWS then k.current.windows i else p.windows i }
    let p2 := { p1 with window_count := k.current.window_count }
    let retained := retain_windows_traced p2.windows p2.window_count k.graphics
    let p3 := process_pass_arguments p2 argv argc
    let p4 := { p3 with ppid := process_getpid k }
    let k1 := process_launch { k with graphics := retained.1 } p4
    ((p4.pid, k1), retained.2)

/-! ### Lemmas about the machine integers -/

theorem toUInt32_lt (i : Int) : toUInt32 i < 2 ^ 32 := by
  unfold toUInt32
  have h1 : (0 : Int) ≤ i % 2 ^ 32 := Int.emod_nonneg _ (by norm_num)
  have h2 : i % 2 ^ 32 < 2 ^ 32 := Int.emod_lt_of_pos _ (by norm_num)
  omega

theorem toUInt32_of_nonneg (i : Int) (h0 : 0 ≤ i) (h1 : i < 2 ^ 32) : toUInt32 i = i.toNat := by
  unfold toUInt32
  rw [Int.emod_eq_of_lt h0 h1]

theorem toUInt32_natCast (n : Nat) (h : n < 2 ^ 32) : toUInt32 (n : Int) = n := by
  rw [toUInt32_of_nonneg _ (by omega) (by exact_mod_cast h)]
  simp

theorem toUInt32_toInt32 (n : Nat) (h : n < 2 ^ 32) : toUInt32 (toInt32 n) = n := by
  unfold toInt32 toUInt32
  rw [Nat.mod_eq_of_lt h]
  split
  · rw [Int.emod_eq_of_lt (by omega) (by exact_mod_cast h)]
    simp
  · have : ((n : Int) - 2 ^ 32) % 2 ^ 32 = (n : Int) := by
      rw [Int.sub_emod, Int.emod_self, sub_zero, Int.emod_emod_of_dvd _ (dvd_refl _)]
      exact Int.emod_eq_of_lt (by omega) (by exact_mod_cast h)
    rw [this]
    simp

/-! ### The page walk of `sys_sbrk` -/

theorem sbrk_trips_succ (P ua i : Nat) (hP : 0 < P) (hi : i < ua) :
    sbrk_trips P ua i = sbrk_trips P ua (i + P) + 1 := by
  unfold sbrk_trips
  by_cases h : P ≤ ua - i
  · have : ua - i + P - 1 = (ua - (i + P) + P - 1) + P := by omega
    rw [this, Nat.add_div_right _ hP]
  · have h1 : ua - (i + P) = 0 := by omega
    rw [h1]
    have h2 : (0 + P - 1) / P = 0 := Nat.div_eq_of_lt (by omega)
    have h3 : (ua - i + P - 1) / P = 1 := by
      apply Nat.div_eq_of_lt_le <;> omega
    rw [h2, h3]

theorem sbrk_trips_done (P ua i : Nat) (hP : 0 < P) (hi : ¬ i < ua) : sbrk_trips P ua i = 0 := by
  unfold sbrk_trips
  apply Nat.div_eq_of_lt
  omega

/-- The loop of `sys_sbrk` returns after `sbrk_trips` trips when the counter
cannot wrap around. -/
theorem sbrk_loop_eq {PT : Type} (ops : PageOps PT) (P ua : Nat) (hP : 0 < P)
    (hua : ua + P ≤ 2 ^ 32) :
    ∀ (fuel i : Nat) (s : SbrkWalk PT), sbrk_trips P ua i < fuel →
      sbrk_loop ops P ua fuel i s = some (sbrk_steps ops P (sbrk_trips P ua i) s) := by
  intro fuel
  induction fuel with
  | zero => intro i s h; omega
  | succ n ih =>
    intro i s h
    unfold sbrk_loop
    by_cases hi : i < ua
    · rw [if_pos hi]
      have hw : (i + P) % 2 ^ 32 = i + P := Nat.mod_eq_of_lt (by omega)
      have ht := sbrk_trips_succ P ua i hP hi
      simp only [hw]
      rw [ih (i + P) _ (by omega), ht]
      rfl
    · rw [if_neg hi, sbrk_trips_done P ua i hP hi]
      rfl

theorem sbrk_trips_zero_le (P ua : Nat) (hP : 0 < P) : sbrk_trips P ua 0 ≤ ua / P + 1 := by
  unfold sbrk_trips
  have h : (ua - 0 + P - 1) / P ≤ (ua + P) / P := Nat.div_le_div_right (by omega)
  rw [Nat.add_div_right _ hP] at h
  exact h


theorem toInt32_of_lt (n : Nat) (h : n < 2 ^ 31) : toInt32 n = (n : Int) := by
  unfold toInt32
  have h1 : n % 2 ^ 32 = n := Nat.mod_eq_of_lt (by omega)
  rw [h1, if_pos h]

/-- What `sys_sbrk` computes once its loop is known to return. -/
theorem sys_sbrk_eq {PT : Type} (ops : PageOps PT) (P : Nat) (current : Process PT) (a : Int)
    (fuel : Nat) (hP : 0 < P) (hua : toUInt32 a + P ≤ 2 ^ 32)
    (hfuel : toUInt32 a / P + 1 < fuel) :
    sys_sbrk ops P fuel current a = some
      { ret := toInt32 (current.brk % 2 ^ 32)
        proc :=
          { current with
            brk := toUInt32 ((current.brk : Int) + a)
            pagetable := (sbrk_probe ops P (sbrk_steps ops P (sbrk_trips P (toUInt32 a) 0)
              ⟨current.pagetable, current.brk % 2 ^ 32, []⟩)).pagetable }
        allocs := (sbrk_probe ops P (sbrk_steps ops P (sbrk_trips P (toUInt32 a) 0)
              ⟨current.pagetable, current.brk % 2 ^ 32, []⟩)).allocs } := by
  have ht := sbrk_trips_zero_le P (toUInt32 a) hP
  unfold sys_sbrk
  simp only
  rw [sbrk_loop_eq ops P (toUInt32 a) hP hua fuel 0 _ (by omega)]

/-! ## Theorems about `sys_sbrk` -/

/-- C1: for every process state and every delta `a >= 0` for which `brk + a`
stays below `2 ^ 32`, `sys_sbrk(a)` returns (given fuel for its
`ceil(a / PAGE_SIZE)` loop trips) the break pointer that was current before
the call, and the break pointer afterwards is the old one plus `a`. The
function returns the break converted to `int`: the 32-bit word returned is the
old break, and it is the same number whenever the old break is below `2 ^ 31`. -/
theorem sys_sbrk_returns_old_break {PT : Type} (ops : PageOps PT) (PAGE_SIZE : Nat)
    (current : Process PT) (a : Int) (fuel : Nat)
    (hP : 0 < PAGE_SIZE) (hP31 : PAGE_SIZE ≤ 2 ^ 31)
    (ha0 : 0 ≤ a) (ha31 : a < 2 ^ 31)
    (hsum : (current.brk : Int) + a < 2 ^ 32)
    (hfuel : a.toNat / PAGE_SIZE + 1 < fuel) :
    ∃ r, sys_sbrk ops PAGE_SIZE fuel current a = some r ∧
      toUInt32 r.ret = current.brk ∧
      (current.brk < 2 ^ 31 → r.ret = (current.brk : Int)) ∧
      (r.proc.brk : Int) = (current.brk : Int) + a := by
  have hua : toUInt32 a = a.toNat := toUInt32_of_nonneg a ha0 (by omega)
  have hbrk : current.brk < 2 ^ 32 := by omega
  have hmod : current.brk % 2 ^ 32 = current.brk := Nat.mod_eq_of_lt hbrk
  refine ⟨_, sys_sbrk_eq ops PAGE_SIZE current a fuel hP ?_ ?_, ?_, ?_, ?_⟩
  · rw [hua]; omega
  · rw [hua]; exact hfuel
  · simp only [hmod]
    exact toUInt32_toInt32 _ hbrk
  · intro h
    simp only [hmod]
    exact toInt32_of_lt _ h
  · simp only
    rw [toUInt32_of_nonneg _ (by omega) hsum]
    omega

/-- C1 at a concrete input: page size 4096, break `0x80000000`, delta 10000. -/
theorem sys_sbrk_returns_old_break_witness :
    ∃ r, sys_sbrk (simpleOps 4096) 4096 5 (exampleProc 2147483648 []) 10000 = some r ∧
      toUInt32 r.ret = 2147483648 ∧
      ((2147483648 : Nat) < 2 ^ 31 → r.ret = ((2147483648 : Nat) : Int)) ∧
      (r.proc.brk : Int) = ((2147483648 : Nat) : Int) + 10000 :=
  sys_sbrk_returns_old_break (simpleOps 4096) 4096 (exampleProc 2147483648 []) 10000 5
    (by decide) (by decide) (by decide) (by decide) (by decide) (by decide)

/-! ### What the page walk maps -/

theorem sbrk_probe_vaddr {PT : Type} (ops : PageOps PT) (P : Nat) (s : SbrkWalk PT) :
    (sbrk_probe ops P s).vaddr = s.vaddr := by
  unfold sbrk_probe
  split <;> rfl

theorem sbrk_probe_of_mapped {PT : Type} (ops : PageOps PT) (P : Nat) (s : SbrkWalk PT)
    (paddr : Nat) (h : ops.getmap s.pagetable s.vaddr = some paddr) :
    sbrk_probe ops P s = s := by
  unfold sbrk_probe
  rw [h]

theorem sbrk_probe_keeps {PT : Type} (ops : PageOps PT) (P : Nat) (hlaw : ops.Lawful P)
    (s : SbrkWalk PT) (x paddr : Nat) (h : ops.getmap s.pagetable x = some paddr) :
    ops.getmap (sbrk_probe ops P s).pagetable x = some paddr := by
  unfold sbrk_probe
  split
  · exact h
  · exact hlaw.alloc_keeps _ _ _ _ _ h

theorem sbrk_probe_maps {PT : Type} (ops : PageOps PT) (P : Nat) (hlaw : ops.Lawful P)
    (s : SbrkWalk PT) (y : Nat) (h : y / P = s.vaddr / P) :
    (ops.getmap (sbrk_probe ops P s).pagetable y).isSome = true := by
  unfold sbrk_probe
  split
  · next paddr hm =>
    exact hlaw.page_granular _ _ _ h (by rw [hm]; rfl)
  · exact hlaw.alloc_maps _ _ _ _ h

theorem isSome_keeps {PT : Type} (ops : PageOps PT) (pt pt1 : PT) (y : Nat)
    (hk : ∀ x paddr, ops.getmap pt x = some paddr → ops.getmap pt1 x = some paddr)
    (h : (ops.getmap pt y).isSome = true) : (ops.getmap pt1 y).isSome = true := by
  obtain ⟨paddr, hp⟩ := Option.isSome_iff_exists.mp h
  rw [hk y paddr hp]
  rfl

/-- After `n` trips through the loop body without wrap-around, `vaddr` has
advanced by `n` pages, nothing that was mapped has changed, and the page of
every probed address is mapped. -/
theorem sbrk_steps_spec {PT : Type} (ops : PageOps PT) (P : Nat) (hlaw : ops.Lawful P) :
    ∀ (n : Nat) (s : SbrkWalk PT), s.vaddr + n * P < 2 ^ 32 →
      (sbrk_steps ops P n s).vaddr = s.vaddr + n * P ∧
      (∀ x paddr, ops.getmap s.pagetable x = some paddr →
        ops.getmap (sbrk_steps ops P n s).pagetable x = some paddr) ∧
      (∀ k, k < n → ∀ y, y / P = (s.vaddr + k * P) / P →
        (ops.getmap (sbrk_steps ops P n s).pagetable y).isSome = true) := by
  intro n
  induction n with
  | zero =>
    intro s _
    refine ⟨by simp [sbrk_steps], fun x paddr h => h, fun k hk => absurd hk (Nat.not_lt_zero k)⟩
  | succ n ih =>
    intro s hs
    have hv : (sbrk_body ops P s).vaddr = s.vaddr + P := by
      show ((sbrk_probe ops P s).vaddr + P) % 2 ^ 32 = s.vaddr + P
      rw [sbrk_probe_vaddr]
      apply Nat.mod_eq_of_lt
      have : s.vaddr + (n + 1) * P = s.vaddr + P + n * P := by ring
      omega
    have hpt : (sbrk_body ops P s).pagetable = (sbrk_probe ops P s).pagetable := rfl
    have hb : (sbrk_body ops P s).vaddr + n * P < 2 ^ 32 := by
      rw [hv]
      have : s.vaddr + (n + 1) * P = s.vaddr + P + n * P := by ring
      omega
    obtain ⟨h1, h2, h3⟩ := ih (sbrk_body ops P s) hb
    show (sbrk_steps ops P n (sbrk_body ops P s)).vaddr = _ ∧
      (∀ x paddr, ops.getmap s.pagetable x = some paddr →
        ops.getmap (sbrk_steps ops P n (sbrk_body ops P s)).pagetable x = some paddr) ∧
      (∀ k, k < n + 1 → ∀ y, y / P = (s.vaddr + k * P) / P →
        (ops.getmap (sbrk_steps ops P n (sbrk_body ops P s)).pagetable y).isSome = true)
    refine ⟨?_, ?_, ?_⟩
    · rw [h1, hv]; ring
    · intro x paddr hx
      exact h2 x paddr (by rw [hpt]; exact sbrk_probe_keeps ops P hlaw s x paddr hx)
    · intro k hk y hy
      cases k with
      | zero =>
        have hy0 : y / P = s.vaddr / P := by simpa using hy
        have := sbrk_probe_maps ops P hlaw s y hy0
        exact isSome_keeps ops _ _ y h2 (by rw [hpt]; exact this)
      | succ k =>
        apply h3 k (by omega) y
        rw [hv, hy]
        congr 1
        ring

/-- Every byte of `[brk, brk + a)` lies in the page of one of the
`ceil(a / P) + 1` probed addresses. -/
theorem page_is_probed (P brk a x : Nat) (hP : 0 < P) (hx0 : brk ≤ x) (hx1 : x < brk + a) :
    ∃ k, k ≤ (a + P - 1) / P ∧ x / P = (brk + k * P) / P := by
  refine ⟨x / P - brk / P, ?_, ?_⟩
  · have h1 : x / P ≤ (brk / P * P + (P - 1) + (a - 1)) / P := by
      apply Nat.div_le_div_right
      have := Nat.div_add_mod brk P
      have := Nat.mod_lt brk hP
      have : brk / P * P = P * (brk / P) := Nat.mul_comm _ _
      omega
    have h2 : (brk / P * P + (P - 1) + (a - 1)) / P = brk / P + (P - 1 + (a - 1)) / P := by
      rw [Nat.add_assoc, Nat.add_comm, Nat.add_mul_div_right _ _ hP, Nat.add_comm]
    have h3 : (P - 1 + (a - 1)) / P ≤ (a + P - 1) / P := Nat.div_le_div_right (by omega)
    have h4 : brk / P ≤ x / P := Nat.div_le_div_right hx0
    omega
  · rw [Nat.add_mul_div_right _ _ hP]
    have : brk / P ≤ x / P := Nat.div_le_div_right hx0
    omega

/-- C2: for every delta `a >= 0`, every initial page table and every old break
(page-aligned or not), after `sys_sbrk(a)` every page that contains a byte
address of `[old, old + a)` is mapped, when the page-table primitives work on
whole pages, `pagetable_alloc` maps the page of the address it is given and
keeps existing mappings, and the last probed address does not wrap around. -/
theorem sys_sbrk_maps_range {PT : Type} (ops : PageOps PT) (PAGE_SIZE : Nat)
    (current : Process PT) (a : Int) (fuel : Nat)
    (hlaw : ops.Lawful PAGE_SIZE)
    (hP : 0 < PAGE_SIZE) (hP31 : PAGE_SIZE ≤ 2 ^ 31)
    (ha0 : 0 ≤ a) (ha31 : a < 2 ^ 31)
    (hnowrap : current.brk + (a.toNat + PAGE_SIZE - 1) / PAGE_SIZE * PAGE_SIZE < 2 ^ 32)
    (hfuel : a.toNat / PAGE_SIZE + 1 < fuel) :
    ∃ r, sys_sbrk ops PAGE_SIZE fuel current a = some r ∧
      ∀ x y, current.brk ≤ x → x < current.brk + a.toNat →
        y / PAGE_SIZE = x / PAGE_SIZE →
        (ops.getmap r.proc.pagetable y).isSome = true := by
  have hua : toUInt32 a = a.toNat := toUInt32_of_nonneg a ha0 (by omega)
  have hbrk : current.brk < 2 ^ 32 := by omega
  have hmod : current.brk % 2 ^ 32 = current.brk := Nat.mod_eq_of_lt hbrk
  have htr : sbrk_trips PAGE_SIZE a.toNat 0 = (a.toNat + PAGE_SIZE - 1) / PAGE_SIZE := rfl
  refine ⟨_, sys_sbrk_eq ops PAGE_SIZE current a fuel hP ?_ ?_, ?_⟩
  · rw [hua]; omega
  · rw [hua]; exact hfuel
  · intro x y hx0 hx1 hy
    simp only [hua, hmod, htr]
    obtain ⟨k, hk, hpage⟩ := page_is_probed PAGE_SIZE current.brk a.toNat x hP hx0 hx1
    obtain ⟨h1, _, h3⟩ := sbrk_steps_spec ops PAGE_SIZE hlaw
      ((a.toNat + PAGE_SIZE - 1) / PAGE_SIZE) ⟨current.pagetable, current.brk, []⟩ hnowrap
    rcases Nat.lt_or_ge k ((a.toNat + PAGE_SIZE - 1) / PAGE_SIZE) with hlt | hge
    · have := h3 k hlt y (by rw [hy, hpage])
      exact isSome_keeps ops _ _ y (sbrk_probe_keeps ops PAGE_SIZE hlaw _) this
    · have hkeq : k = (a.toNat + PAGE_SIZE - 1) / PAGE_SIZE := by omega
      apply sbrk_probe_maps ops PAGE_SIZE hlaw
      rw [h1, hy, hpage, hkeq]

/-! ### The page table used at concrete inputs -/

theorem SimplePT.alloc_page (P : Nat) (hP : 0 < P) (pt : List (Nat × Nat)) (v flags : Nat) :
    SimplePT.alloc P pt v P flags =
      match pt.lookup (v / P) with
      | some _ => pt
      | none => (v / P, (pt.length + 1) * P) :: pt := by
  unfold SimplePT.alloc
  rw [Nat.div_self hP]
  simp [List.range_succ]

theorem simpleOps_lawful (P : Nat) (hP : 0 < P) : (simpleOps P).Lawful P where
  page_granular := by
    intro pt v x hx hv
    show (SimplePT.getmap P pt x).isSome = true
    have hv1 : (SimplePT.getmap P pt v).isSome = true := hv
    unfold SimplePT.getmap at hv1 ⊢
    rw [hx]
    cases hl : List.lookup (v / P) pt with
    | none => rw [hl] at hv1; simp at hv1
    | some frame => rfl
  alloc_maps := by
    intro pt v flags x hx
    show (SimplePT.getmap P (SimplePT.alloc P pt v P flags) x).isSome = true
    rw [SimplePT.alloc_page P hP]
    unfold SimplePT.getmap
    rw [hx]
    cases hl : List.lookup (v / P) pt with
    | none => simp [List.lookup]
    | some frame => simp [hl]
  alloc_keeps := by
    intro pt v flags x paddr hx
    show SimplePT.getmap P (SimplePT.alloc P pt v P flags) x = some paddr
    have hx1 : SimplePT.getmap P pt x = some paddr := hx
    rw [SimplePT.alloc_page P hP]
    cases hl : List.lookup (v / P) pt with
    | some frame => exact hx1
    | none =>
      unfold SimplePT.getmap at hx1 ⊢
      have hne : (x / P == v / P) = false := by
        rw [beq_eq_false_iff_ne]
        intro he
        rw [he, hl] at hx1
        simp at hx1
      simp only [List.lookup, hne]
      exact hx1

/-- C2 at a concrete input: page size 4096, an empty page table, the break
`0x80000ff0` (not page-aligned), delta 5000. -/
theorem sys_sbrk_maps_range_witness :
    ∃ r, sys_sbrk (simpleOps 4096) 4096 5 (exampleProc 2147487728 []) 5000 = some r ∧
      ∀ x y, 2147487728 ≤ x → x < 2147487728 + (5000 : Int).toNat →
        y / 4096 = x / 4096 →
        ((simpleOps 4096).getmap r.proc.pagetable y).isSome = true :=
  sys_sbrk_maps_range (simpleOps 4096) 4096 (exampleProc 2147487728 []) 5000 5
    (simpleOps_lawful 4096 (by decide))
    (by decide) (by decide) (by decide) (by decide) (by decide) (by decide)

/-- C3 as stated fails: with nothing mapped at the break `0x80000000`,
`sys_sbrk(0)` calls `pagetable_alloc` (for the page at the break). -/
theorem sys_sbrk_zero_allocs_counterexample :
    ∃ r, sys_sbrk (simpleOps 4096) 4096 1 (exampleProc 2147483648 []) 0 = some r ∧
      r.allocs = [2147483648] ∧ r.allocs ≠ [] ∧
      (simpleOps 4096).getmap r.proc.pagetable 2147483648 = some 4096 ∧
      (simpleOps 4096).getmap [] 2147483648 = none :=
  ⟨_, rfl, by decide, by decide, by decide, by decide⟩

/-- C3, amended: `sys_sbrk(0)` returns the current break pointer and leaves it
unchanged; it passes the break to `pagetable_alloc` exactly when the break is
not mapped (once), and maps nothing and leaves the page table as it is when
the break is mapped; a repeated call returns the same value, maps nothing and
changes nothing. -/
theorem sys_sbrk_zero {PT : Type} (ops : PageOps PT) (PAGE_SIZE : Nat)
    (current : Process PT) (fuel : Nat) (hbrk : current.brk < 2 ^ 32) :
    ∃ r, sys_sbrk ops PAGE_SIZE (fuel + 1) current 0 = some r ∧
      r.ret = toInt32 current.brk ∧ toUInt32 r.ret = current.brk ∧
      r.proc.brk = current.brk ∧
      ((ops.getmap current.pagetable current.brk).isSome = true →
        r.allocs = [] ∧ r.proc.pagetable = current.pagetable) ∧
      (ops.getmap current.pagetable current.brk = none → r.allocs = [current.brk]) ∧
      (ops.Lawful PAGE_SIZE → ∀ fuel2, ∃ r2,
        sys_sbrk ops PAGE_SIZE (fuel2 + 1) r.proc 0 = some r2 ∧
          r2.ret = r.ret ∧ r2.allocs = [] ∧ r2.proc = r.proc) := by
  have hz : toUInt32 0 = 0 := by decide
  have key : ∀ (c : Process PT) (f : Nat), c.brk < 2 ^ 32 →
      sys_sbrk ops PAGE_SIZE (f + 1) c 0 = some
        { ret := toInt32 c.brk
          proc := { c with
                    brk := c.brk,
                    pagetable := (sbrk_probe ops PAGE_SIZE ⟨c.pagetable, c.brk, []⟩).pagetable }
          allocs := (sbrk_probe ops PAGE_SIZE ⟨c.pagetable, c.brk, []⟩).allocs } := by
    intro c f hc
    have hm : c.brk % 4294967296 = c.brk := Nat.mod_eq_of_lt hc
    have hcb : toUInt32 (c.brk : Int) = c.brk := toUInt32_natCast _ hc
    simp [sys_sbrk, sbrk_loop, hz, hm, hcb]
  refine ⟨_, key current fuel hbrk, rfl, toUInt32_toInt32 _ hbrk, rfl, ?_, ?_, ?_⟩
  · intro h
    obtain ⟨paddr, hp⟩ := Option.isSome_iff_exists.mp h
    rw [sbrk_probe_of_mapped ops PAGE_SIZE _ paddr hp]
    exact ⟨rfl, rfl⟩
  · intro h
    simp [sbrk_probe, h]
  · intro hlaw fuel2
    have hm := sbrk_probe_maps ops PAGE_SIZE hlaw
      ⟨current.pagetable, current.brk, []⟩ current.brk rfl
    obtain ⟨paddr, hp⟩ := Option.isSome_iff_exists.mp hm
    refine ⟨_, key _ fuel2 hbrk, rfl, ?_, ?_⟩
    · simp only
      rw [sbrk_probe_of_mapped ops PAGE_SIZE _ paddr hp]
    · simp only
      rw [sbrk_probe_of_mapped ops PAGE_SIZE _ paddr hp]

/-- C3, amended, at a concrete input: the break `0x80000000`, nothing mapped. -/
theorem sys_sbrk_zero_witness :
    ∃ r, sys_sbrk (simpleOps 4096) 4096 (0 + 1) (exampleProc 2147483648 []) 0 = some r ∧
      r.ret = toInt32 2147483648 ∧ toUInt32 r.ret = 2147483648 ∧
      r.proc.brk = 2147483648 ∧
      (((simpleOps 4096).getmap [] 2147483648).isSome = true →
        r.allocs = [] ∧ r.proc.pagetable = []) ∧
      ((simpleOps 4096).getmap [] 2147483648 = none → r.allocs = [2147483648]) ∧
      ((simpleOps 4096).Lawful 4096 → ∀ fuel2, ∃ r2,
        sys_sbrk (simpleOps 4096) 4096 (fuel2 + 1) r.proc 0 = some r2 ∧
          r2.ret = r.ret ∧ r2.allocs = [] ∧ r2.proc = r.proc) :=
  sys_sbrk_zero (simpleOps 4096) 4096 (exampleProc 2147483648 []) 0 (by decide)

/-! ## Theorems about `sys_draw_create` -/

theorem wrap32_of_range (i : Int) (h0 : -2 ^ 31 ≤ i) (h1 : i < 2 ^ 31) : wrap32 i = i := by
  unfold wrap32 toInt32 toUInt32
  have hlt : (i % 2 ^ 32).toNat < 2 ^ 32 := toUInt32_lt i
  rw [Nat.mod_eq_of_lt hlt]
  have hnn : (0 : Int) ≤ i % 2 ^ 32 := Int.emod_nonneg _ (by norm_num)
  have hcast : (((i % 2 ^ 32).toNat : Nat) : Int) = i % 2 ^ 32 := Int.toNat_of_nonneg hnn
  by_cases hi : 0 ≤ i
  · have he : i % 2 ^ 32 = i := Int.emod_eq_of_lt hi (by omega)
    rw [if_pos (by omega), hcast, he]
  · have he : i % 2 ^ 32 = i + 2 ^ 32 := by
      have h2 : (i + 2 ^ 32) % 2 ^ 32 = i + 2 ^ 32 := Int.emod_eq_of_lt (by omega) (by omega)
      rw [← h2]
      simp
    rw [if_neg (by omega), hcast, he]
    ring

/-- C4 fails on the code: for the parent window 0 with the clip rectangle
`(10, 20, 100, 50)`, `sys_draw_create(0, -1, 0, 1, 1)` does not return
`ENOENT`; it returns the new index 1 and creates a window with the clip
rectangle `(9, 20, 1, 1)`, which starts left of its parent. -/
theorem sys_draw_create_accepts_negative_x :
    (sys_draw_create (exampleEnv simpleCreate) exampleKernel 0 (-1) 0 1 1).1 = 1 ∧
    (sys_draw_create (exampleEnv simpleCreate) exampleKernel 0 (-1) 0 1 1).1
      ≠ (exampleEnv simpleCreate).ENOENT ∧
    (exampleKernel.graphics (exampleKernel.current.windows 0)).clip = ⟨10, 20, 100, 50⟩ ∧
    ((sys_draw_create (exampleEnv simpleCreate) exampleKernel 0 (-1) 0 1 1).2.graphics
      ((sys_draw_create (exampleEnv simpleCreate) exampleKernel 0 (-1) 0 1 1).2.current.windows 1)).clip
      = ⟨9, 20, 1, 1⟩ ∧
    (sys_draw_create (exampleEnv simpleCreate) exampleKernel 0 (-1) 0 1 1).2.current.window_count
      = 2 := by
  refine ⟨by decide, by decide, by decide, by decide, by decide⟩

/-- The guard of `sys_draw_create`: the call is turned away with `ENOENT`, and
nothing is touched, exactly when the table is full, `wd` is not an open window,
or the 32-bit sum `x + w` (`y + h`) exceeds the width (height) of the parent. -/
theorem sys_draw_create_guard {PT : Type} (env : KernelEnv PT) (k : Kernel PT)
    (wd x y w h : Int)
    (hg : k.current.window_count ≥ (env.PROCESS_MAX_WINDOWS : Int) ∨ wd < 0 ∨
      wd ≥ k.current.window_count ∨
      (k.graphics (k.current.windows wd.toNat)).clip.w < wrap32 (x + w) ∨
      (k.graphics (k.current.windows wd.toNat)).clip.h < wrap32 (y + h)) :
    sys_draw_create env k wd x y w h = (env.ENOENT, k) := by
  unfold sys_draw_create
  simp only
  rw [if_pos]
  simp only [Bool.or_eq_true, decide_eq_true_eq]
  tauto

/-- What `sys_draw_create` does when its guard lets the call through. -/
theorem sys_draw_create_pass {PT : Type} (env : KernelEnv PT) (k : Kernel PT)
    (wd x y w h : Int)
    (hg : ¬ (k.current.window_count ≥ (env.PROCESS_MAX_WINDOWS : Int) ∨ wd < 0 ∨
      wd ≥ k.current.window_count ∨
      (k.graphics (k.current.windows wd.toNat)).clip.w < wrap32 (x + w) ∨
      (k.graphics (k.current.windows wd.toNat)).clip.h < wrap32 (y + h))) :
    sys_draw_create env k wd x y w h =
      (let created := env.graphics_create k.graphics (k.current.windows wd.toNat)
       let cur1 : Process PT := { k.current with
         windows := Function.update k.current.windows k.current.window_count.toNat created.2 }
       let g1 := created.1
       if cur1.windows cur1.window_count.toNat = 0 then
         (env.ENOENT, { k with current := cur1, graphics := g1 })
       else
         let g2 := set_clip_x g1 (cur1.windows cur1.window_count.toNat)
           (wrap32 (x + (g1 (cur1.windows wd.toNat)).clip.x))
         let g3 := set_clip_y g2 (cur1.windows cur1.window_count.toNat)
           (wrap32 (y + (g2 (cur1.windows wd.toNat)).clip.y))
         let g4 := set_clip_w g3 (cur1.windows cur1.window_count.toNat) w
         let g5 := set_clip_h g4 (cur1.windows cur1.window_count.toNat) h
         (cur1.window_count,
           { k with
             current := { cur1 with window_count := wrap32 (cur1.window_count + 1) }
             graphics := g5 })) := by
  conv_lhs => unfold sys_draw_create
  simp only
  rw [if_neg]
  simp only [Bool.or_eq_true, decide_eq_true_eq]
  tauto

theorem set_clip_x_same (mem : Nat → Graphics) (g : Nat) (v : Int) :
    set_clip_x mem g v g = { mem g with clip := { (mem g).clip with x := v } } :=
  Function.update_same _ _ _

theorem set_clip_y_same (mem : Nat → Graphics) (g : Nat) (v : Int) :
    set_clip_y mem g v g = { mem g with clip := { (mem g).clip with y := v } } :=
  Function.update_same _ _ _

theorem set_clip_w_same (mem : Nat → Graphics) (g : Nat) (v : Int) :
    set_clip_w mem g v g = { mem g with clip := { (mem g).clip with w := v } } :=
  Function.update_same _ _ _

theorem set_clip_h_same (mem : Nat → Graphics) (g : Nat) (v : Int) :
    set_clip_h mem g v g = { mem g with clip := { (mem g).clip with h := v } } :=
  Function.update_same _ _ _

theorem set_clip_x_other (mem : Nat → Graphics) (g : Nat) (v : Int) (q : Nat) (h : q ≠ g) :
    set_clip_x mem g v q = mem q :=
  Function.update_noteq h _ _

theorem set_clip_y_other (mem : Nat → Graphics) (g : Nat) (v : Int) (q : Nat) (h : q ≠ g) :
    set_clip_y mem g v q = mem q :=
  Function.update_noteq h _ _

theorem set_clip_w_other (mem : Nat → Graphics) (g : Nat) (v : Int) (q : Nat) (h : q ≠ g) :
    set_clip_w mem g v q = mem q :=
  Function.update_noteq h _ _

theorem set_clip_h_other (mem : Nat → Graphics) (g : Nat) (v : Int) (q : Nat) (h : q ≠ g) :
    set_clip_h mem g v q = mem q :=
  Function.update_noteq h _ _

/-- C5: whenever `sys_draw_create(wd, x, y, w, h)` succeeds (does not return
`ENOENT`), it returns the old `window_count`, the new surface is stored at that
index, its clip rectangle is `(x + parent.clip.x, y + parent.clip.y, w, h)`
(32-bit sums) for the caller's window `wd` as parent, `window_count` has grown
by one, and every window entry that was open, with its clip rectangle, is as
before. The surface that `graphics_create` returns is taken to be a new one,
and `graphics_create` to leave the clip rectangles of the open windows alone. -/
theorem sys_draw_create_success {PT : Type} (env : KernelEnv PT) (k : Kernel PT)
    (wd x y w h : Int)
    (hmax : (env.PROCESS_MAX_WINDOWS : Int) < 2 ^ 31)
    (hfresh : ∀ i : Nat, (i : Int) < k.current.window_count →
      k.current.windows i ≠ (env.graphics_create k.graphics (k.current.windows wd.toNat)).2)
    (hframe : ∀ i : Nat, (i : Int) < k.current.window_count →
      ((env.graphics_create k.graphics (k.current.windows wd.toNat)).1
        (k.current.windows i)).clip = (k.graphics (k.current.windows i)).clip)
    (hret : (sys_draw_create env k wd x y w h).1 ≠ env.ENOENT) :
    (sys_draw_create env k wd x y w h).1 = k.current.window_count ∧
    (sys_draw_create env k wd x y w h).2.current.window_count = k.current.window_count + 1 ∧
    (sys_draw_create env k wd x y w h).2.current.windows k.current.window_count.toNat
      = (env.graphics_create k.graphics (k.current.windows wd.toNat)).2 ∧
    (env.graphics_create k.graphics (k.current.windows wd.toNat)).2 ≠ 0 ∧
    ((sys_draw_create env k wd x y w h).2.graphics
      ((sys_draw_create env k wd x y w h).2.current.windows k.current.window_count.toNat)).clip
      = ⟨wrap32 (x + (k.graphics (k.current.windows wd.toNat)).clip.x),
         wrap32 (y + (k.graphics (k.current.windows wd.toNat)).clip.y), w, h⟩ ∧
    ∀ i : Nat, (i : Int) < k.current.window_count →
      (sys_draw_create env k wd x y w h).2.current.windows i = k.current.windows i ∧
      ((sys_draw_create env k wd x y w h).2.graphics (k.current.windows i)).clip
        = (k.graphics (k.current.windows i)).clip := by
  by_cases hg : (k.current.window_count ≥ (env.PROCESS_MAX_WINDOWS : Int) ∨ wd < 0 ∨
      wd ≥ k.current.window_count ∨
      (k.graphics (k.current.windows wd.toNat)).clip.w < wrap32 (x + w) ∨
      (k.graphics (k.current.windows wd.toNat)).clip.h < wrap32 (y + h))
  · rw [sys_draw_create_guard env k wd x y w h hg] at hret
    exact absurd rfl hret
  · rw [sys_draw_create_pass env k wd x y w h hg] at hret ⊢
    simp only [Function.update_same] at hret ⊢
    push_neg at hg
    obtain ⟨hfull, hwd0, hwd1, -, -⟩ := hg
    by_cases hp : (env.graphics_create k.graphics (k.current.windows wd.toNat)).2 = 0
    · rw [if_pos hp] at hret
      exact absurd rfl hret
    · rw [if_neg hp]
      have hwdn : wd.toNat ≠ k.current.window_count.toNat := by omega
      have hwdlt : ((wd.toNat : Nat) : Int) < k.current.window_count := by omega
      have hpar := hfresh wd.toNat hwdlt
      have hparclip := hframe wd.toNat hwdlt
      have hw : wrap32 (k.current.window_count + 1) = k.current.window_count + 1 :=
        wrap32_of_range _ (by omega) (by omega)
      refine ⟨rfl, hw, ?_, hp, ?_, ?_⟩
      · simp only [Function.update_same]
      · have e2 : Function.update k.current.windows k.current.window_count.toNat
            (env.graphics_create k.graphics (k.current.windows wd.toNat)).2 wd.toNat
            = k.current.windows wd.toNat := Function.update_noteq hwdn _ _
        simp only [Function.update_same, e2]
        simp only [set_clip_h_same, set_clip_w_same, set_clip_y_same, set_clip_x_same,
          set_clip_x_other _ _ _ _ hpar, hparclip]
      · intro i hi
        have hin : i ≠ k.current.window_count.toNat := by omega
        have hfi := hfresh i hi
        refine ⟨?_, ?_⟩
        · simp only [Function.update_noteq hin]
        · simp only [set_clip_h_other _ _ _ _ hfi, set_clip_w_other _ _ _ _ hfi,
            set_clip_y_other _ _ _ _ hfi, set_clip_x_other _ _ _ _ hfi]
          exact hframe i hi

/-- C5 at a concrete input: the window `(5, 5, 20, 10)` inside window 0, whose
clip rectangle is `(10, 20, 100, 50)`. -/
theorem sys_draw_create_success_witness :
    (sys_draw_create (exampleEnv simpleCreate) exampleKernel 0 5 5 20 10).1
      = exampleKernel.current.window_count ∧
    (sys_draw_create (exampleEnv simpleCreate) exampleKernel 0 5 5 20 10).2.current.window_count
      = exampleKernel.current.window_count + 1 ∧
    (sys_draw_create (exampleEnv simpleCreate) exampleKernel 0 5 5 20 10).2.current.windows
        exampleKernel.current.window_count.toNat
      = ((exampleEnv simpleCreate).graphics_create exampleKernel.graphics
          (exampleKernel.current.windows (0 : Int).toNat)).2 ∧
    ((exampleEnv simpleCreate).graphics_create exampleKernel.graphics
          (exampleKernel.current.windows (0 : Int).toNat)).2 ≠ 0 ∧
    ((sys_draw_create (exampleEnv simpleCreate) exampleKernel 0 5 5 20 10).2.graphics
      ((sys_draw_create (exampleEnv simpleCreate) exampleKernel 0 5 5 20 10).2.current.windows
        exampleKernel.current.window_count.toNat)).clip
      = ⟨wrap32 (5 + (exampleKernel.graphics
            (exampleKernel.current.windows (0 : Int).toNat)).clip.x),
         wrap32 (5 + (exampleKernel.graphics
            (exampleKernel.current.windows (0 : Int).toNat)).clip.y), 20, 10⟩ ∧
    ∀ i : Nat, (i : Int) < exampleKernel.current.window_count →
      (sys_draw_create (exampleEnv simpleCreate) exampleKernel 0 5 5 20 10).2.current.windows i
        = exampleKernel.current.windows i ∧
      ((sys_draw_create (exampleEnv simpleCreate) exampleKernel 0 5 5 20 10).2.graphics
          (exampleKernel.current.windows i)).clip
        = (exampleKernel.graphics (exampleKernel.current.windows i)).clip :=
  sys_draw_create_success (exampleEnv simpleCreate) exampleKernel 0 5 5 20 10
    (by decide)
    (by
      intro i hi
      have hi0 : i = 0 := by
        have : (i : Int) < 1 := hi
        omega
      subst hi0
      decide)
    (by
      intro i hi
      have hi0 : i = 0 := by
        have : (i : Int) < 1 := hi
        omega
      subst hi0
      decide)
    (by decide)

/-- C6: whenever `sys_draw_create` returns `ENOENT` (a negative value), for
whichever of its reasons, `window_count`, the entries `windows[0..window_count)`
and their clip rectangles are the same as before the call. A
`graphics_create` that fails is taken to leave the clip rectangles of the open
windows alone. -/
theorem sys_draw_create_failure_creates_nothing {PT : Type} (env : KernelEnv PT)
    (k : Kernel PT) (wd x y w h : Int)
    (hneg : env.ENOENT < 0)
    (hframe : (env.graphics_create k.graphics (k.current.windows wd.toNat)).2 = 0 →
      ∀ i : Nat, (i : Int) < k.current.window_count →
        ((env.graphics_create k.graphics (k.current.windows wd.toNat)).1
          (k.current.windows i)).clip = (k.graphics (k.current.windows i)).clip)
    (hret : (sys_draw_create env k wd x y w h).1 = env.ENOENT) :
    (sys_draw_create env k wd x y w h).2.current.window_count = k.current.window_count ∧
    ∀ i : Nat, (i : Int) < k.current.window_count →
      (sys_draw_create env k wd x y w h).2.current.windows i = k.current.windows i ∧
      ((sys_draw_create env k wd x y w h).2.graphics
          ((sys_draw_create env k wd x y w h).2.current.windows i)).clip
        = (k.graphics (k.current.windows i)).clip := by
  by_cases hg : (k.current.window_count ≥ (env.PROCESS_MAX_WINDOWS : Int) ∨ wd < 0 ∨
      wd ≥ k.current.window_count ∨
      (k.graphics (k.current.windows wd.toNat)).clip.w < wrap32 (x + w) ∨
      (k.graphics (k.current.windows wd.toNat)).clip.h < wrap32 (y + h))
  · rw [sys_draw_create_guard env k wd x y w h hg]
    exact ⟨rfl, fun i _ => ⟨rfl, rfl⟩⟩
  · rw [sys_draw_create_pass env k wd x y w h hg] at hret ⊢
    simp only [Function.update_same] at hret ⊢
    push_neg at hg
    obtain ⟨-, hwd0, hwd1, -, -⟩ := hg
    by_cases hp : (env.graphics_create k.graphics (k.current.windows wd.toNat)).2 = 0
    · rw [if_pos hp]
      refine ⟨rfl, ?_⟩
      intro i hi
      have hin : i ≠ k.current.window_count.toNat := by omega
      simp only [Function.update_noteq hin]
      exact ⟨trivial, hframe hp i hi⟩
    · rw [if_neg hp] at hret
      have : k.current.window_count = env.ENOENT := hret
      omega

/-- C6 at a concrete input: the surface registry cannot create a surface. -/
theorem sys_draw_create_failure_creates_nothing_witness :
    (sys_draw_create (exampleEnv failingCreate) exampleKernel 0 5 5 20 10).2.current.window_count
      = exampleKernel.current.window_count ∧
    ∀ i : Nat, (i : Int) < exampleKernel.current.window_count →
      (sys_draw_create (exampleEnv failingCreate) exampleKernel 0 5 5 20 10).2.current.windows i
        = exampleKernel.current.windows i ∧
      ((sys_draw_create (exampleEnv failingCreate) exampleKernel 0 5 5 20 10).2.graphics
          ((sys_draw_create (exampleEnv failingCreate) exampleKernel 0 5 5 20 10).2.current.windows
            i)).clip
        = (exampleKernel.graphics (exampleKernel.current.windows i)).clip :=
  sys_draw_create_failure_creates_nothing (exampleEnv failingCreate) exampleKernel 0 5 5 20 10
    (by decide) (fun _ _ _ => rfl) (by decide)

/-! ## Theorems about `sys_process_run` -/

theorem retain_window_same (windows : Nat → Nat) (mem : Nat → Graphics) (i : Nat) :
    retain_window windows mem i (windows i)
      = { mem (windows i) with count := (mem (windows i)).count + 1 } :=
  Function.update_same _ _ _

theorem retain_window_other (windows : Nat → Nat) (mem : Nat → Graphics) (i q : Nat)
    (h : q ≠ windows i) : retain_window windows mem i q = mem q :=
  Function.update_noteq h _ _

/-- The reference-count loop over `n` pairwise distinct entries: each of their
surfaces gets one more holder, every other object is as before. -/
theorem retain_fold_spec (windows : Nat → Nat) (mem : Nat → Graphics) :
    ∀ n : Nat, (∀ i j, i < n → j < n → i ≠ j → windows i ≠ windows j) →
      (∀ i, i < n →
        (List.range n).foldl (retain_window windows) mem (windows i)
          = { mem (windows i) with count := (mem (windows i)).count + 1 }) ∧
      (∀ q, (∀ i, i < n → windows i ≠ q) →
        (List.range n).foldl (retain_window windows) mem q = mem q) := by
  intro n
  induction n with
  | zero =>
    intro _
    exact ⟨fun i hi => absurd hi (Nat.not_lt_zero i), fun q _ => rfl⟩
  | succ n ih =>
    intro hd
    obtain ⟨ih1, ih2⟩ := ih (fun i j hi hj hij => hd i j (by omega) (by omega) hij)
    have hlast : (List.range n).foldl (retain_window windows) mem (windows n) = mem (windows n) :=
      ih2 (windows n) (fun i hi => hd i n (by omega) (by omega) (by omega))
    rw [List.range_succ, List.foldl_append]
    simp only [List.foldl_cons, List.foldl_nil]
    refine ⟨?_, ?_⟩
    · intro i hi
      rcases Nat.lt_or_ge i n with hlt | hge
      · have hne : windows i ≠ windows n := hd i n (by omega) (by omega) (by omega)
        rw [retain_window_other _ _ _ _ hne]
        exact ih1 i hlt
      · have hin : i = n := by omega
        subst hin
        rw [retain_window_same, hlast]
    · intro q hq
      have hne : q ≠ windows n := fun h => hq n (by omega) h.symm
      rw [retain_window_other _ _ _ _ hne]
      exact ih2 q (fun i hi => hq i (by omega))

/-- C7: whenever `sys_process_run` succeeds (the loader returns a process),
the child that is put on the ready list has the `window_count` of the parent,
its entries below `window_count` point to the same surfaces, whose clip
rectangles are as before, each of these surfaces (pairwise distinct) has one
holder more, every other surface is unchanged, and the parent is unchanged.
The parent satisfies `window_count <= PROCESS_MAX_WINDOWS`. -/
theorem sys_process_run_inherits_windows {PT : Type} (env : KernelEnv PT) (k : Kernel PT)
    (path : List Nat) (argv : List (List Nat)) (argc : Int) (p : Process PT)
    (hload : env.elf_load path = some p)
    (hcount : k.current.window_count ≤ (env.PROCESS_MAX_WINDOWS : Int))
    (hdistinct : ∀ i j : Nat, (i : Int) < k.current.window_count →
      (j : Int) < k.current.window_count → i ≠ j →
      k.current.windows i ≠ k.current.windows j) :
    ∃ child,
      (sys_process_run env k path argv argc).2.ready = k.ready ++ [child] ∧
      (sys_process_run env k path argv argc).1 = child.pid ∧
      child.window_count = k.current.window_count ∧
      (∀ i : Nat, (i : Int) < k.current.window_count →
        child.windows i = k.current.windows i ∧
        ((sys_process_run env k path argv argc).2.graphics (child.windows i)).clip
          = (k.graphics (k.current.windows i)).clip ∧
        ((sys_process_run env k path argv argc).2.graphics (k.current.windows i)).count
          = (k.graphics (k.current.windows i)).count + 1) ∧
      (∀ q : Nat, (∀ i : Nat, (i : Int) < k.current.window_count → k.current.windows i ≠ q) →
        (sys_process_run env k path argv argc).2.graphics q = k.graphics q) ∧
      (sys_process_run env k path argv argc).2.current = k.current := by
  have hcopy : ∀ i : Nat, (i : Int) < k.current.window_count →
      (if i < env.PROCESS_MAX_WINDOWS then k.current.windows i else p.windows i)
        = k.current.windows i := by
    intro i hi
    rw [if_pos (by omega)]
  have hd : ∀ i j, i < k.current.window_count.toNat → j < k.current.window_count.toNat →
      i ≠ j →
      (fun i => if i < env.PROCESS_MAX_WINDOWS then k.current.windows i else p.windows i) i
        ≠ (fun i => if i < env.PROCESS_MAX_WINDOWS then k.current.windows i else p.windows i) j := by
    intro i j hi hj hij
    simp only
    rw [hcopy i (by omega), hcopy j (by omega)]
    exact hdistinct i j (by omega) (by omega) hij
  obtain ⟨h1, h2⟩ := retain_fold_spec
    (fun i => if i < env.PROCESS_MAX_WINDOWS then k.current.windows i else p.windows i)
    k.graphics k.current.window_count.toNat hd
  unfold sys_process_run
  rw [hload]
  simp only [process_launch, process_pass_arguments, process_getpid, retain_windows]
  refine ⟨_, rfl, rfl, rfl, ?_, ?_, trivial⟩
  · intro i hi
    have hi1 : i < k.current.window_count.toNat := by omega
    have e := h1 i hi1
    simp only [hcopy i hi] at e
    refine ⟨hcopy i hi, ?_, ?_⟩
    · simp only [hcopy i hi, e]
    · rw [e]
  · intro q hq
    apply h2 q
    intro i hi
    show (if i < env.PROCESS_MAX_WINDOWS then k.current.windows i else p.windows i) ≠ q
    rw [hcopy i (by omega)]
    exact hq i (by omega)

/-- C7 at a concrete input: the parent has one window, the loader knows the
path. -/
theorem sys_process_run_inherits_windows_witness :
    ∃ child,
      (sys_process_run (exampleEnv simpleCreate) exampleKernel [47] [[97]] 1).2.ready
        = exampleKernel.ready ++ [child] ∧
      (sys_process_run (exampleEnv simpleCreate) exampleKernel [47] [[97]] 1).1 = child.pid ∧
      child.window_count = exampleKernel.current.window_count ∧
      (∀ i : Nat, (i : Int) < exampleKernel.current.window_count →
        child.windows i = exampleKernel.current.windows i ∧
        ((sys_process_run (exampleEnv simpleCreate) exampleKernel [47] [[97]] 1).2.graphics
            (child.windows i)).clip
          = (exampleKernel.graphics (exampleKernel.current.windows i)).clip ∧
        ((sys_process_run (exampleEnv simpleCreate) exampleKernel [47] [[97]] 1).2.graphics
            (exampleKernel.current.windows i)).count
          = (exampleKernel.graphics (exampleKernel.current.windows i)).count + 1) ∧
      (∀ q : Nat,
        (∀ i : Nat, (i : Int) < exampleKernel.current.window_count →
          exampleKernel.current.windows i ≠ q) →
        (sys_process_run (exampleEnv simpleCreate) exampleKernel [47] [[97]] 1).2.graphics q
          = exampleKernel.graphics q) ∧
      (sys_process_run (exampleEnv simpleCreate) exampleKernel [47] [[97]] 1).2.current
        = exampleKernel.current :=
  sys_process_run_inherits_windows (exampleEnv simpleCreate) exampleKernel [47] [[97]] 1
    { pid := 7, ppid := 0, brk := 2147483648, pagetable := [], windows := fun _ => 0,
      window_count := 0, argc := 0, argv := [] }
    rfl (by decide)
    (by
      intro i j hi hj hij
      have hi1 : (i : Int) < 1 := hi
      have hj1 : (j : Int) < 1 := hj
      omega)

/-- C8: for every path for which the image loader fails, `sys_process_run`
returns `ENOENT` and leaves the kernel state as it is: nothing is put on the
ready list, no reference count changes, the caller is unchanged. -/
theorem sys_process_run_load_failure {PT : Type} (env : KernelEnv PT) (k : Kernel PT)
    (path : List Nat) (argv : List (List Nat)) (argc : Int)
    (hload : env.elf_load path = none) :
    sys_process_run env k path argv argc = (env.ENOENT, k) := by
  unfold sys_process_run
  rw [hload]

/-- C8 at a concrete input: a path that the loader does not know. -/
theorem sys_process_run_load_failure_witness :
    sys_process_run (exampleEnv simpleCreate) exampleKernel [120] [[97]] 1
      = ((exampleEnv simpleCreate).ENOENT, exampleKernel) :=
  sys_process_run_load_failure (exampleEnv simpleCreate) exampleKernel [120] [[97]] 1 rfl

/-! ## Theorems about the output buffer -/

/-- Once the remaining length is a positive multiple of `PAGE_SIZE - 1` the
chunk length is 0: a trip through the loop changes neither the length nor the
index, and the loop does not return. -/
theorem printf_buffer_loop_stuck (P : Nat) (s : List Nat) (len : Nat) (hlen : len ≠ 0)
    (hmod : len % (P - 1) = 0) :
    ∀ (fuel : Nat) (st : Stdio), printf_buffer_loop P fuel st s len = none := by
  intro fuel
  induction fuel with
  | zero => intro st; rfl
  | succ n ih =>
    intro st
    unfold printf_buffer_loop
    rw [if_neg hlen]
    simp only [hmod, Nat.sub_zero]
    exact ih _

/-- The loop of `printf_buffer` does not return for any length from
`PAGE_SIZE - 1` on. -/
theorem printf_buffer_loop_diverges (P : Nat) (hP : 2 ≤ P) (s : List Nat) (len : Nat)
    (hlen : P - 1 ≤ len) :
    ∀ (fuel : Nat) (st : Stdio), printf_buffer_loop P fuel st s len = none := by
  intro fuel st
  cases fuel with
  | zero => rfl
  | succ n =>
    unfold printf_buffer_loop
    have h0 : len ≠ 0 := by omega
    rw [if_neg h0]
    have hlt : len % (P - 1) < P - 1 := Nat.mod_lt _ (by omega)
    exact printf_buffer_loop_stuck P s (len - len % (P - 1)) (by omega)
      (Nat.sub_mod_eq_zero_of_mod_eq (Nat.mod_mod _ _).symm) n _

theorem strlen_replicate (n b : Nat) (hb : b ≠ 0) : strlen (List.replicate n b) = n := by
  unfold strlen
  induction n with
  | zero => rfl
  | succ n ih =>
    rw [List.replicate_succ, List.takeWhile_cons_of_pos (by simpa using hb), List.length_cons, ih]

/-- C9 fails on the code: with a page size of 4096 and an empty buffer,
`printf_putstring` of a string of 4095 letters `a` does not return, however
much fuel the loop of `printf_buffer` is given; the chunk length
`len % (PAGE_SIZE - 1)` is 0 in every trip, so no byte is consumed. -/
theorem printf_putstring_never_returns :
    ∀ fuel : Nat, printf_putstring 4096 fuel Stdio.init (List.replicate 4095 97) = none := by
  intro fuel
  unfold printf_putstring printf_buffer
  rw [strlen_replicate 4095 97 (by decide),
    printf_buffer_loop_diverges 4096 (by decide) _ (4095 % 2 ^ 32) (by decide)]

theorem usub32_of_le (a b : Nat) (hb : b ≤ a) (ha : a < 2 ^ 32) : usub32 a b = a - b := by
  unfold usub32
  rw [Nat.mod_eq_of_lt ha, Nat.mod_eq_of_lt (by omega : b < 2 ^ 32)]
  have : a + 2 ^ 32 - b = (a - b) + 2 ^ 32 := by omega
  rw [this, Nat.add_mod_right]
  exact Nat.mod_eq_of_lt (by omega)

/-- The text that `debug` reads from a buffer whose first `m` bytes are not
null and whose byte `m` is null. -/
theorem cstring_eq (mem : Nat → Nat) :
    ∀ (n i m : Nat), (∀ j, j < m → mem (i + j) ≠ 0) → mem (i + m) = 0 → m < n →
      cstring mem i n = (List.range m).map (fun j => mem (i + j)) := by
  intro n
  induction n with
  | zero => intro i m _ _ h; omega
  | succ n ih =>
    intro i m hnz hz hm
    unfold cstring
    cases m with
    | zero =>
      rw [if_pos (by simpa using hz)]
      rfl
    | succ m =>
      have h0 : mem i ≠ 0 := by simpa using hnz 0 (by omega)
      rw [if_neg h0, List.range_succ_eq_map, List.map_cons, List.map_map]
      rw [ih (i + 1) m (fun j hj => by
        have := hnz (j + 1) (by omega)
        rwa [show i + 1 + j = i + (j + 1) by omega]) (by
        rwa [show i + 1 + m = i + (m + 1) by omega]) (by omega)]
      congr 1
      apply List.map_congr_left
      intro j _
      show mem (i + 1 + j) = mem (i + (j + 1))
      rw [show i + 1 + j = i + (j + 1) by omega]

/-- The loop of `printf_buffer` for a single byte: one trip. -/
theorem printf_buffer_loop_one (P fuel : Nat) (st : Stdio) (c : Nat) (hP : 3 ≤ P) :
    printf_buffer_loop P (fuel + 2) st [c] 1 = some
      { stdio_buffer :=
          memcpy
            (if 1 > usub32 (usub32 P st.stdio_buffer_index) 1 then flush P st else st).stdio_buffer
            (if 1 > usub32 (usub32 P st.stdio_buffer_index) 1 then flush P st
              else st).stdio_buffer_index [c] 1
        stdio_buffer_index :=
          ((if 1 > usub32 (usub32 P st.stdio_buffer_index) 1 then flush P st
              else st).stdio_buffer_index + 1) % 2 ^ 32
        debug_out :=
          (if 1 > usub32 (usub32 P st.stdio_buffer_index) 1 then flush P st else st).debug_out } := by
  have h1 : 1 % (P - 1) = 1 := Nat.mod_eq_of_lt (by omega)
  unfold printf_buffer_loop
  rw [if_neg (by decide)]
  simp only [h1, Nat.sub_self]
  unfold printf_buffer_loop
  rw [if_pos rfl]

/-- C10 as stated fails. From the initial state, a string of 4094 letters and
one more letter fill the buffer (cursor 4095, nothing flushed); the newline
that follows triggers two flushes. And after a staged null byte the text that
the flush for a newline passes to `debug` is empty, so it does not end with
the newline. -/
theorem printf_putchar_newline_counterexample :
    (((printf_putstring 4096 2 Stdio.init (List.replicate 4094 97)).bind
        (fun st => printf_putchar 4096 2 st 97)).map
      (fun st => (st.stdio_buffer_index, st.debug_out.length)) = some (4095, 0)) ∧
    ((((printf_putstring 4096 2 Stdio.init (List.replicate 4094 97)).bind
        (fun st => printf_putchar 4096 2 st 97)).bind
        (fun st => printf_putchar 4096 2 st 10)).map
      (fun st => st.debug_out.length) = some 2) ∧
    (((printf_putchar 4096 2 Stdio.init 0).bind (fun st => printf_putchar 4096 2 st 10)).map
      (fun st => st.debug_out) = some [[]]) := by
  unfold printf_putstring
  rw [strlen_replicate 4094 97 (by decide)]
  refine ⟨by decide, by decide, by decide⟩

/-- The text that `debug` reads after the byte `c` has been staged behind
`idx` bytes that are not null. -/
theorem cstring_staged (buf : Nat → Nat) (idx P c : Nat) (hc : c ≠ 0) (hlt : idx + 1 < P)
    (hnz : ∀ i, i < idx → buf i ≠ 0) :
    cstring (Function.update (memcpy buf idx [c] 1) (idx + 1) 0) 0 P
      = (List.range idx).map buf ++ [c] := by
  have hb_lt : ∀ j, j < idx →
      Function.update (memcpy buf idx [c] 1) (idx + 1) 0 j = buf j := by
    intro j hj
    have hne : j ≠ idx + 1 := by omega
    rw [Function.update_noteq hne]
    unfold memcpy
    rw [if_neg (by omega)]
  have hb_idx : Function.update (memcpy buf idx [c] 1) (idx + 1) 0 idx = c := by
    have hne : idx ≠ idx + 1 := by omega
    rw [Function.update_noteq hne]
    unfold memcpy
    rw [if_pos (by omega), Nat.sub_self]
    rfl
  have hb_end : Function.update (memcpy buf idx [c] 1) (idx + 1) 0 (idx + 1) = 0 :=
    Function.update_same _ _ _
  rw [cstring_eq _ P 0 (idx + 1) ?_ ?_ hlt]
  · rw [List.range_succ, List.map_append, List.map_cons, List.map_nil, Nat.zero_add, hb_idx]
    have hm : List.map (fun j => Function.update (memcpy buf idx [c] 1) (idx + 1) 0 (0 + j))
        (List.range idx) = List.map buf (List.range idx) := by
      apply List.map_congr_left
      intro j hj
      show Function.update (memcpy buf idx [c] 1) (idx + 1) 0 (0 + j) = buf j
      rw [Nat.zero_add]
      exact hb_lt j (List.mem_range.mp hj)
    rw [hm]
  · intro j hj
    rw [Nat.zero_add]
    by_cases hjl : j < idx
    · rw [hb_lt j hjl]
      exact hnz j hjl
    · have hje : j = idx := by omega
      rw [hje, hb_idx]
      exact hc
  · rw [Nat.zero_add]
    exact hb_end

/-- The loop of `printf_buffer` for a single byte that fits. -/
theorem printf_buffer_loop_one_fits (P fuel : Nat) (st : Stdio) (c : Nat) (hP : 3 ≤ P)
    (hP32 : P < 2 ^ 32) (hlt : st.stdio_buffer_index < P - 1) :
    printf_buffer_loop P (fuel + 2) st [c] 1 = some
      { stdio_buffer := memcpy st.stdio_buffer st.stdio_buffer_index [c] 1
        stdio_buffer_index := st.stdio_buffer_index + 1
        debug_out := st.debug_out } := by
  have hu : usub32 (usub32 P st.stdio_buffer_index) 1 = P - st.stdio_buffer_index - 1 := by
    rw [usub32_of_le P _ (by omega) hP32, usub32_of_le _ 1 (by omega) (by omega)]
  have hno : ¬ (1 > usub32 (usub32 P st.stdio_buffer_index) 1) := by rw [hu]; omega
  have hw : (st.stdio_buffer_index + 1) % 2 ^ 32 = st.stdio_buffer_index + 1 :=
    Nat.mod_eq_of_lt (by omega)
  rw [printf_buffer_loop_one P fuel st c hP, if_neg hno, hw]

/-- The loop of `printf_buffer` for a single byte when the buffer is full:
flush, then stage the byte at index 0. -/
theorem printf_buffer_loop_one_full (P fuel : Nat) (st : Stdio) (c : Nat) (hP : 3 ≤ P)
    (hP32 : P < 2 ^ 32) (heq : st.stdio_buffer_index = P - 1) :
    printf_buffer_loop P (fuel + 2) st [c] 1 = some
      { stdio_buffer := memcpy (Function.update st.stdio_buffer 0 0) 0 [c] 1
        stdio_buffer_index := 0 + 1
        debug_out := st.debug_out ++ [cstring st.stdio_buffer 0 P] } := by
  have hu : usub32 (usub32 P st.stdio_buffer_index) 1 = 0 := by
    rw [usub32_of_le P _ (by omega) hP32, usub32_of_le _ 1 (by omega) (by omega)]
    omega
  have hyes : 1 > usub32 (usub32 P st.stdio_buffer_index) 1 := by rw [hu]; omega
  have hw : (0 + 1) % 2 ^ 32 = 0 + 1 := by decide
  rw [printf_buffer_loop_one P fuel st c hP, if_pos hyes]
  unfold flush
  dsimp only
  rw [hw]

/-- C10, amended: for a cursor below `PAGE_SIZE - 1`, `printf_putchar('\n')`
triggers exactly one flush, after the newline has been staged, and when no
null byte is staged the flushed text is the staged bytes followed by the
newline; for a full buffer (cursor `PAGE_SIZE - 1`) it triggers two flushes,
the first, before the newline is staged, of the text in the buffer, the second
of the newline alone; in both cases the cursor is 0 afterwards. -/
theorem printf_putchar_newline (P fuel : Nat) (st : Stdio) (hP : 3 ≤ P) (hP32 : P < 2 ^ 32)
    (hidx : st.stdio_buffer_index ≤ P - 1) :
    ∃ st1, printf_putchar P (fuel + 2) st 10 = some st1 ∧
      st1.stdio_buffer_index = 0 ∧
      (st.stdio_buffer_index < P - 1 →
        ∃ text, st1.debug_out = st.debug_out ++ [text] ∧
          ((∀ i, i < st.stdio_buffer_index → st.stdio_buffer i ≠ 0) →
            text = (List.range st.stdio_buffer_index).map st.stdio_buffer ++ [10])) ∧
      (st.stdio_buffer_index = P - 1 →
        st1.debug_out = st.debug_out ++ [cstring st.stdio_buffer 0 P, [10]]) := by
  by_cases hlt : st.stdio_buffer_index < P - 1
  · unfold printf_putchar printf_buffer
    rw [printf_buffer_loop_one_fits P fuel st 10 hP hP32 hlt]
    dsimp only
    rw [if_pos (rfl : (10 : Nat) = 10)]
    refine ⟨_, rfl, rfl, ?_, fun heq => absurd heq (by omega)⟩
    intro _
    refine ⟨_, rfl, ?_⟩
    intro hnz
    exact cstring_staged st.stdio_buffer st.stdio_buffer_index P 10 (by decide) (by omega) hnz
  · have heq : st.stdio_buffer_index = P - 1 := by omega
    unfold printf_putchar printf_buffer
    rw [printf_buffer_loop_one_full P fuel st 10 hP hP32 heq]
    dsimp only
    rw [if_pos (rfl : (10 : Nat) = 10)]
    refine ⟨_, rfl, rfl, fun h => absurd h hlt, ?_⟩
    intro _
    have hc := cstring_staged (Function.update st.stdio_buffer 0 0) 0 P 10 (by decide)
      (by omega) (fun i hi => absurd hi (Nat.not_lt_zero i))
    show (st.debug_out ++ [cstring st.stdio_buffer 0 P]) ++
      [cstring (Function.update (memcpy (Function.update st.stdio_buffer 0 0) 0 [10] 1)
        (0 + 1) 0) 0 P] = _
    rw [hc, List.append_assoc]
    rfl

/-- C10, amended, at a concrete input: page size 4096, the letters `abc`
staged. -/
theorem printf_putchar_newline_witness :
    ∃ st1, printf_putchar 4096 (0 + 2) ⟨fun i => if i < 3 then 97 + i else 0, 3, []⟩ 10
        = some st1 ∧
      st1.stdio_buffer_index = 0 ∧
      ((3 : Nat) < 4096 - 1 →
        ∃ text, st1.debug_out = ([] : List (List Nat)) ++ [text] ∧
          ((∀ i, i < 3 → (fun i => if i < 3 then 97 + i else 0) i ≠ 0) →
            text = (List.range 3).map (fun i => if i < 3 then 97 + i else 0) ++ [10])) ∧
      ((3 : Nat) = 4096 - 1 →
        st1.debug_out = ([] : List (List Nat)) ++
          [cstring (fun i => if i < 3 then 97 + i else 0) 0 4096, [10]]) :=
  printf_putchar_newline 4096 0 ⟨fun i => if i < 3 then 97 + i else 0, 3, []⟩
    (by decide) (by decide) (by decide)

/-! ## The window-count invariant and the admission of the child -/

/-- C15: the invariant `0 <= window_count <= PROCESS_MAX_WINDOWS` is preserved:
when it holds for the caller before `sys_draw_create` it holds after the call,
whether the call succeeds or fails, and when it holds for the parent it holds
for the child that `sys_process_run` puts on the ready list. -/
theorem window_count_invariant {PT : Type} (env : KernelEnv PT) (k : Kernel PT)
    (wd x y w h : Int) (path : List Nat) (argv : List (List Nat)) (argc : Int)
    (hmax : (env.PROCESS_MAX_WINDOWS : Int) < 2 ^ 31)
    (hinv : 0 ≤ k.current.window_count ∧
      k.current.window_count ≤ (env.PROCESS_MAX_WINDOWS : Int)) :
    (0 ≤ (sys_draw_create env k wd x y w h).2.current.window_count ∧
      (sys_draw_create env k wd x y w h).2.current.window_count
        ≤ (env.PROCESS_MAX_WINDOWS : Int)) ∧
    (∀ p, env.elf_load path = some p →
      ∃ child, (sys_process_run env k path argv argc).2.ready = k.ready ++ [child] ∧
        0 ≤ child.window_count ∧ child.window_count ≤ (env.PROCESS_MAX_WINDOWS : Int)) := by
  refine ⟨?_, ?_⟩
  · by_cases hg : (k.current.window_count ≥ (env.PROCESS_MAX_WINDOWS : Int) ∨ wd < 0 ∨
        wd ≥ k.current.window_count ∨
        (k.graphics (k.current.windows wd.toNat)).clip.w < wrap32 (x + w) ∨
        (k.graphics (k.current.windows wd.toNat)).clip.h < wrap32 (y + h))
    · rw [sys_draw_create_guard env k wd x y w h hg]
      exact hinv
    · rw [sys_draw_create_pass env k wd x y w h hg]
      simp only [Function.update_same]
      push_neg at hg
      obtain ⟨hfull, -, -, -, -⟩ := hg
      by_cases hp : (env.graphics_create k.graphics (k.current.windows wd.toNat)).2 = 0
      · rw [if_pos hp]
        exact hinv
      · rw [if_neg hp]
        have hw : wrap32 (k.current.window_count + 1) = k.current.window_count + 1 :=
          wrap32_of_range _ (by omega) (by omega)
        show 0 ≤ wrap32 (k.current.window_count + 1) ∧
          wrap32 (k.current.window_count + 1) ≤ (env.PROCESS_MAX_WINDOWS : Int)
        rw [hw]
        omega
  · intro p hload
    unfold sys_process_run
    rw [hload]
    exact ⟨_, rfl, hinv.1, hinv.2⟩

/-- C15 at a concrete input: a caller with one window out of five. -/
theorem window_count_invariant_witness :
    (0 ≤ (sys_draw_create (exampleEnv simpleCreate) exampleKernel 0 5 5 20 10).2.current.window_count ∧
      (sys_draw_create (exampleEnv simpleCreate) exampleKernel 0 5 5 20 10).2.current.window_count
        ≤ ((exampleEnv simpleCreate).PROCESS_MAX_WINDOWS : Int)) ∧
    (∀ p, (exampleEnv simpleCreate).elf_load [47] = some p →
      ∃ child,
        (sys_process_run (exampleEnv simpleCreate) exampleKernel [47] [[97]] 1).2.ready
          = exampleKernel.ready ++ [child] ∧
        0 ≤ child.window_count ∧
        child.window_count ≤ ((exampleEnv simpleCreate).PROCESS_MAX_WINDOWS : Int)) :=
  window_count_invariant (exampleEnv simpleCreate) exampleKernel 0 5 5 20 10 [47] [[97]] 1
    (by decide) (by decide)

/-- C16: whenever the image loader succeeds, `sys_process_run` puts the new
process on the ready list exactly once, as the last thing it does: the state
handed to `process_launch` already has the reference counts raised, and the
process handed to it already has the window table, the arguments and the
parent id; that parent id is the id of the calling process, and the value
returned is the id of the new process. -/
theorem sys_process_run_admits_once {PT : Type} (env : KernelEnv PT) (k : Kernel PT)
    (path : List Nat) (argv : List (List Nat)) (argc : Int) (p : Process PT)
    (hload : env.elf_load path = some p) :
    ∃ child,
      sys_process_run env k path argv argc
        = (child.pid,
            process_launch
              { k with graphics := retain_windows child.windows child.window_count k.graphics }
              child) ∧
      (sys_process_run env k path argv argc).2.ready = k.ready ++ [child] ∧
      (sys_process_run env k path argv argc).2.graphics
        = retain_windows child.windows child.window_count k.graphics ∧
      (sys_process_run env k path argv argc).1 = p.pid ∧
      child.pid = p.pid ∧
      child.ppid = k.current.pid ∧
      child.window_count = k.current.window_count ∧
      (∀ i, i < env.PROCESS_MAX_WINDOWS → child.windows i = k.current.windows i) ∧
      child.argc = argc ∧ child.argv = argv.take argc.toNat := by
  unfold sys_process_run
  rw [hload]
  refine ⟨_, rfl, rfl, rfl, rfl, rfl, rfl, rfl, ?_, rfl, rfl⟩
  intro i hi
  show (if i < env.PROCESS_MAX_WINDOWS then k.current.windows i else p.windows i)
    = k.current.windows i
  rw [if_pos hi]

/-- C16 at a concrete input: the loader knows the path. -/
theorem sys_process_run_admits_once_witness :
    ∃ child,
      sys_process_run (exampleEnv simpleCreate) exampleKernel [47] [[97]] 1
        = (child.pid,
            process_launch
              { exampleKernel with
                graphics := retain_windows child.windows child.window_count exampleKernel.graphics }
              child) ∧
      (sys_process_run (exampleEnv simpleCreate) exampleKernel [47] [[97]] 1).2.ready
        = exampleKernel.ready ++ [child] ∧
      (sys_process_run (exampleEnv simpleCreate) exampleKernel [47] [[97]] 1).2.graphics
        = retain_windows child.windows child.window_count exampleKernel.graphics ∧
      (sys_process_run (exampleEnv simpleCreate) exampleKernel [47] [[97]] 1).1 = 7 ∧
      child.pid = 7 ∧
      child.ppid = exampleKernel.current.pid ∧
      child.window_count = exampleKernel.current.window_count ∧
      (∀ i, i < (exampleEnv simpleCreate).PROCESS_MAX_WINDOWS →
        child.windows i = exampleKernel.current.windows i) ∧
      child.argc = 1 ∧ child.argv = [[97]].take (1 : Int).toNat :=
  sys_process_run_admits_once (exampleEnv simpleCreate) exampleKernel [47] [[97]] 1
    { pid := 7, ppid := 0, brk := 2147483648, pagetable := [], windows := fun _ => 0,
      window_count := 0, argc := 0, argv := [] } rfl

/-! ## `sys_sbrk` only adds mappings -/

theorem sbrk_probe_allocs {PT : Type} (ops : PageOps PT) (P : Nat) (s : SbrkWalk PT) :
    (sbrk_probe ops P s).allocs = s.allocs ∨
      ((sbrk_probe ops P s).allocs = s.allocs ++ [s.vaddr] ∧
        ops.getmap s.pagetable s.vaddr = none) := by
  unfold sbrk_probe
  split
  · exact Or.inl rfl
  · next h => exact Or.inr ⟨rfl, h⟩

theorem unmapped_of_later_unmapped {PT : Type} (ops : PageOps PT) (pt pt1 : PT) (v : Nat)
    (hk : ∀ x paddr, ops.getmap pt x = some paddr → ops.getmap pt1 x = some paddr)
    (h : ops.getmap pt1 v = none) : ops.getmap pt v = none := by
  cases hv : ops.getmap pt v with
  | none => rfl
  | some paddr =>
    rw [hk v paddr hv] at h
    exact absurd h (by simp)

/-- The calls of `pagetable_alloc` that `n` trips through the loop body add to
the log: their addresses increase, each is a probed address, and each was
unmapped when the trips began. -/
theorem sbrk_steps_allocs {PT : Type} (ops : PageOps PT) (P : Nat) (hP : 0 < P)
    (hlaw : ops.Lawful P) :
    ∀ (n : Nat) (s : SbrkWalk PT), s.vaddr + n * P < 2 ^ 32 →
      ∃ added, (sbrk_steps ops P n s).allocs = s.allocs ++ added ∧
        added.Pairwise (fun u v => u < v) ∧
        ∀ v, v ∈ added → ops.getmap s.pagetable v = none ∧
          ∃ k, k < n ∧ v = s.vaddr + k * P := by
  intro n
  induction n with
  | zero =>
    intro s _
    exact ⟨[], by simp [sbrk_steps], List.Pairwise.nil, fun v hv => absurd hv (List.not_mem_nil v)⟩
  | succ n ih =>
    intro s hs
    have hsum : s.vaddr + (n + 1) * P = s.vaddr + P + n * P := by ring
    have hv : (sbrk_body ops P s).vaddr = s.vaddr + P := by
      show ((sbrk_probe ops P s).vaddr + P) % 2 ^ 32 = s.vaddr + P
      rw [sbrk_probe_vaddr]
      exact Nat.mod_eq_of_lt (by omega)
    have hpt : (sbrk_body ops P s).pagetable = (sbrk_probe ops P s).pagetable := rfl
    have hal : (sbrk_body ops P s).allocs = (sbrk_probe ops P s).allocs := rfl
    obtain ⟨added1, h1, h2, h3⟩ := ih (sbrk_body ops P s) (by rw [hv]; omega)
    have hlater : ∀ v, v ∈ added1 → ops.getmap s.pagetable v = none ∧
        ∃ k, k < n + 1 ∧ v = s.vaddr + k * P ∧ s.vaddr < v := by
      intro v hvm
      obtain ⟨hnone, k, hk, hvk⟩ := h3 v hvm
      refine ⟨unmapped_of_later_unmapped ops _ _ v (sbrk_probe_keeps ops P hlaw s)
        (by rw [← hpt]; exact hnone), k + 1, by omega, ?_, ?_⟩
      · rw [hvk, hv]; ring
      · rw [hvk, hv]
        have : 0 ≤ k * P := Nat.zero_le _
        omega
    show ∃ added, (sbrk_steps ops P n (sbrk_body ops P s)).allocs = s.allocs ++ added ∧ _
    rcases sbrk_probe_allocs ops P s with h0 | ⟨h0, hnone0⟩
    · refine ⟨added1, by rw [h1, hal, h0], h2, ?_⟩
      intro v hvm
      obtain ⟨ha, k, hk, hvk, _⟩ := hlater v hvm
      exact ⟨ha, k, hk, hvk⟩
    · refine ⟨s.vaddr :: added1, by rw [h1, hal, h0, List.append_assoc]; rfl, ?_, ?_⟩
      · rw [List.pairwise_cons]
        exact ⟨fun v hvm => (hlater v hvm).2.choose_spec.2.2, h2⟩
      · intro v hvm
        rcases List.mem_cons.mp hvm with hv0 | hv1
        · exact ⟨by rw [hv0]; exact hnone0, 0, by omega, by rw [hv0]; simp⟩
        · obtain ⟨ha, k, hk, hvk, _⟩ := hlater v hv1
          exact ⟨ha, k, hk, hvk⟩

/-- After the page walk for `[brk, brk + a)`, the trips and the probe that
follows them, the page of every byte of the range is mapped. -/
theorem sbrk_walk_maps {PT : Type} (ops : PageOps PT) (P : Nat) (hlaw : ops.Lawful P)
    (hP : 0 < P) (pt : PT) (brk a : Nat)
    (hnowrap : brk + (a + P - 1) / P * P < 2 ^ 32) (x y : Nat)
    (hx0 : brk ≤ x) (hx1 : x < brk + a) (hy : y / P = x / P) :
    (ops.getmap (sbrk_probe ops P
      (sbrk_steps ops P ((a + P - 1) / P) ⟨pt, brk, []⟩)).pagetable y).isSome = true := by
  obtain ⟨k, hk, hpage⟩ := page_is_probed P brk a x hP hx0 hx1
  obtain ⟨h1, _, h3⟩ := sbrk_steps_spec ops P hlaw ((a + P - 1) / P) ⟨pt, brk, []⟩ hnowrap
  rcases Nat.lt_or_ge k ((a + P - 1) / P) with hlt | hge
  · have := h3 k hlt y (by rw [hy, hpage])
    exact isSome_keeps ops _ _ y (sbrk_probe_keeps ops P hlaw _) this
  · have hkeq : k = (a + P - 1) / P := by omega
    apply sbrk_probe_maps ops P hlaw
    rw [h1, hy, hpage, hkeq]

theorem le_ceil_mul (a P : Nat) (hP : 0 < P) : a ≤ (a + P - 1) / P * P := by
  have h1 := Nat.div_add_mod (a + P - 1) P
  have h2 := Nat.mod_lt (a + P - 1) hP
  have h3 : (a + P - 1) / P * P = P * ((a + P - 1) / P) := Nat.mul_comm _ _
  omega

/-- C18: `sys_sbrk` only adds mappings. For every delta `a >= 0` every address
that was mapped before the call is mapped to the same physical address after
it; `pagetable_alloc` is called only for probed addresses, in increasing order
and so for no address twice, and only for addresses that were not mapped; so
when every page-aligned address below the break was mapped before the call,
every page-aligned address below the new break is mapped after it. The
page-table primitives work on whole pages, `pagetable_alloc` maps the page of
its address and keeps existing mappings, and no probed address wraps around. -/
theorem sys_sbrk_only_adds {PT : Type} (ops : PageOps PT) (PAGE_SIZE : Nat)
    (current : Process PT) (a : Int) (fuel : Nat)
    (hlaw : ops.Lawful PAGE_SIZE)
    (hP : 0 < PAGE_SIZE) (hP31 : PAGE_SIZE ≤ 2 ^ 31)
    (ha0 : 0 ≤ a) (ha31 : a < 2 ^ 31)
    (hnowrap : current.brk + (a.toNat + PAGE_SIZE - 1) / PAGE_SIZE * PAGE_SIZE < 2 ^ 32)
    (hfuel : a.toNat / PAGE_SIZE + 1 < fuel) :
    ∃ r, sys_sbrk ops PAGE_SIZE fuel current a = some r ∧
      (∀ x paddr, ops.getmap current.pagetable x = some paddr →
        ops.getmap r.proc.pagetable x = some paddr) ∧
      r.allocs.Pairwise (fun u v => u < v) ∧
      (∀ v, v ∈ r.allocs → ops.getmap current.pagetable v = none ∧
        ∃ k, k ≤ (a.toNat + PAGE_SIZE - 1) / PAGE_SIZE ∧ v = current.brk + k * PAGE_SIZE) ∧
      ((∀ x, x % PAGE_SIZE = 0 → x < current.brk →
          (ops.getmap current.pagetable x).isSome = true) →
        ∀ x, x % PAGE_SIZE = 0 → x < r.proc.brk →
          (ops.getmap r.proc.pagetable x).isSome = true) := by
  have hua : toUInt32 a = a.toNat := toUInt32_of_nonneg a ha0 (by omega)
  have hbrk : current.brk < 2 ^ 32 := by omega
  have hmod : current.brk % 2 ^ 32 = current.brk := Nat.mod_eq_of_lt hbrk
  have htr : sbrk_trips PAGE_SIZE a.toNat 0 = (a.toNat + PAGE_SIZE - 1) / PAGE_SIZE := rfl
  have hceil := le_ceil_mul a.toNat PAGE_SIZE hP
  obtain ⟨hvaddr, hkeep, _⟩ := sbrk_steps_spec ops PAGE_SIZE hlaw
    ((a.toNat + PAGE_SIZE - 1) / PAGE_SIZE) ⟨current.pagetable, current.brk, []⟩ hnowrap
  obtain ⟨added, hadd, hpair, hmem⟩ := sbrk_steps_allocs ops PAGE_SIZE hP hlaw
    ((a.toNat + PAGE_SIZE - 1) / PAGE_SIZE) ⟨current.pagetable, current.brk, []⟩ hnowrap
  have hkeep2 : ∀ x paddr, ops.getmap current.pagetable x = some paddr →
      ops.getmap (sbrk_probe ops PAGE_SIZE (sbrk_steps ops PAGE_SIZE
        ((a.toNat + PAGE_SIZE - 1) / PAGE_SIZE)
        ⟨current.pagetable, current.brk, []⟩)).pagetable x = some paddr :=
    fun x paddr hx => sbrk_probe_keeps ops PAGE_SIZE hlaw _ x paddr (hkeep x paddr hx)
  have hnewbrk : toUInt32 ((current.brk : Int) + a) = current.brk + a.toNat := by
    rw [toUInt32_of_nonneg _ (by omega) (by omega)]
    omega
  refine ⟨_, sys_sbrk_eq ops PAGE_SIZE current a fuel hP ?_ ?_, ?_, ?_, ?_, ?_⟩
  · rw [hua]; omega
  · rw [hua]; exact hfuel
  · simp only [hua, hmod, htr]
    exact hkeep2
  · simp only [hua, hmod, htr]
    rcases sbrk_probe_allocs ops PAGE_SIZE (sbrk_steps ops PAGE_SIZE
        ((a.toNat + PAGE_SIZE - 1) / PAGE_SIZE) ⟨current.pagetable, current.brk, []⟩)
      with h0 | ⟨h0, _⟩
    · rw [h0, hadd]
      simpa using hpair
    · rw [h0, hadd, hvaddr]
      simp only [List.nil_append]
      rw [List.pairwise_append]
      refine ⟨hpair, List.pairwise_singleton _ _, ?_⟩
      intro u hu v hv
      obtain ⟨_, k, hk, huk⟩ := hmem u hu
      rw [List.mem_singleton.mp hv, huk]
      have : k * PAGE_SIZE + PAGE_SIZE ≤ (a.toNat + PAGE_SIZE - 1) / PAGE_SIZE * PAGE_SIZE := by
        rw [← Nat.succ_mul]
        exact Nat.mul_le_mul_right _ hk
      show current.brk + k * PAGE_SIZE
        < current.brk + (a.toNat + PAGE_SIZE - 1) / PAGE_SIZE * PAGE_SIZE
      omega
  · simp only [hua, hmod, htr]
    intro v hv
    rcases sbrk_probe_allocs ops PAGE_SIZE (sbrk_steps ops PAGE_SIZE
        ((a.toNat + PAGE_SIZE - 1) / PAGE_SIZE) ⟨current.pagetable, current.brk, []⟩)
      with h0 | ⟨h0, hnone⟩
    · rw [h0, hadd] at hv
      obtain ⟨hn, k, hk, hvk⟩ := hmem v (by simpa using hv)
      exact ⟨hn, k, by omega, hvk⟩
    · rw [h0, hadd, hvaddr] at hv
      simp only [List.nil_append, List.mem_append, List.mem_singleton] at hv
      rcases hv with hv | hv
      · obtain ⟨hn, k, hk, hvk⟩ := hmem v hv
        exact ⟨hn, k, by omega, hvk⟩
      · refine ⟨?_, _, le_refl _, hv⟩
        rw [hvaddr] at hnone
        rw [hv]
        exact unmapped_of_later_unmapped ops _ _ _ hkeep hnone
  · simp only [hua, hmod, htr, hnewbrk]
    intro hbelow x hx hlt
    rcases Nat.lt_or_ge x current.brk with hold | hnew
    · exact isSome_keeps ops _ _ x hkeep2 (hbelow x hx hold)
    · exact sbrk_walk_maps ops PAGE_SIZE hlaw hP current.pagetable current.brk a.toNat
        hnowrap x x hnew hlt rfl

/-- C18 at a concrete input: page size 4096, one page mapped below the break
`0x80001000`, delta 5000. -/
theorem sys_sbrk_only_adds_witness :
    ∃ r, sys_sbrk (simpleOps 4096) 4096 5 (exampleProc 2147487744 [(524288, 4096)]) 5000
        = some r ∧
      (∀ x paddr, (simpleOps 4096).getmap (exampleProc 2147487744 [(524288, 4096)]).pagetable x
          = some paddr →
        (simpleOps 4096).getmap r.proc.pagetable x = some paddr) ∧
      r.allocs.Pairwise (fun u v => u < v) ∧
      (∀ v, v ∈ r.allocs →
        (simpleOps 4096).getmap (exampleProc 2147487744 [(524288, 4096)]).pagetable v = none ∧
        ∃ k, k ≤ ((5000 : Int).toNat + 4096 - 1) / 4096 ∧
          v = (exampleProc 2147487744 [(524288, 4096)]).brk + k * 4096) ∧
      ((∀ x, x % 4096 = 0 → x < (exampleProc 2147487744 [(524288, 4096)]).brk →
          ((simpleOps 4096).getmap (exampleProc 2147487744 [(524288, 4096)]).pagetable x).isSome
            = true) →
        ∀ x, x % 4096 = 0 → x < r.proc.brk →
          ((simpleOps 4096).getmap r.proc.pagetable x).isSome = true) :=
  sys_sbrk_only_adds (simpleOps 4096) 4096 (exampleProc 2147487744 [(524288, 4096)]) 5000 5
    (simpleOps_lawful 4096 (by decide))
    (by decide) (by decide) (by decide) (by decide) (by decide) (by decide)

/-! ## Termination of the page walk -/

/-- The loop of `sys_sbrk` has not returned while trips remain. -/
theorem sbrk_loop_none_of_le {PT : Type} (ops : PageOps PT) (P ua : Nat) (hP : 0 < P)
    (hua : ua + P ≤ 2 ^ 32) :
    ∀ (fuel i : Nat) (s : SbrkWalk PT), fuel ≤ sbrk_trips P ua i →
      sbrk_loop ops P ua fuel i s = none := by
  intro fuel
  induction fuel with
  | zero => intro i s _; rfl
  | succ n ih =>
    intro i s h
    have hi : i < ua := by
      by_contra hc
      rw [sbrk_trips_done P ua i hP hc] at h
      omega
    unfold sbrk_loop
    rw [if_pos hi]
    have hw : (i + P) % 2 ^ 32 = i + P := Nat.mod_eq_of_lt (by omega)
    have ht := sbrk_trips_succ P ua i hP hi
    simp only [hw]
    exact ih (i + P) _ (by omega)

/-- A counter that is a multiple of the page size never reaches a bound above
`2 ^ 32 - PAGE_SIZE`: it wraps around to 0 first. -/
theorem sbrk_loop_wraps {PT : Type} (ops : PageOps PT) (P ua : Nat)
    (hdvd : P ∣ 2 ^ 32) (hua : 2 ^ 32 - P < ua) :
    ∀ (fuel i : Nat) (s : SbrkWalk PT), P ∣ i → i < 2 ^ 32 →
      sbrk_loop ops P ua fuel i s = none := by
  intro fuel
  induction fuel with
  | zero => intro i s _ _; rfl
  | succ n ih =>
    intro i s hdi hi
    have hle : i + P ≤ 2 ^ 32 := by
      obtain ⟨q, hq⟩ := hdi
      obtain ⟨Q, hQ⟩ := hdvd
      have hqQ : q < Q := by
        by_contra hc
        have : P * Q ≤ P * q := Nat.mul_le_mul_left P (by omega)
        omega
      have : P * (q + 1) ≤ P * Q := Nat.mul_le_mul_left P (by omega)
      rw [Nat.mul_succ] at this
      omega
    have hlt : i < ua := by omega
    unfold sbrk_loop
    rw [if_pos hlt]
    exact ih _ _ ((Nat.dvd_mod_iff hdvd).mpr ((Nat.dvd_add_right hdi).mpr (dvd_refl P)))
      (Nat.mod_lt _ (by norm_num))

/-- The address probed after `k` trips through the loop body. -/
theorem sbrk_steps_vaddr {PT : Type} (ops : PageOps PT) (P : Nat) :
    ∀ (k : Nat) (s : SbrkWalk PT), s.vaddr < 2 ^ 32 →
      (sbrk_steps ops P k s).vaddr = (s.vaddr + k * P) % 2 ^ 32 := by
  intro k
  induction k with
  | zero =>
    intro s hs
    show s.vaddr = (s.vaddr + 0 * P) % 2 ^ 32
    rw [Nat.zero_mul, Nat.add_zero, Nat.mod_eq_of_lt hs]
  | succ k ih =>
    intro s _
    have hv : (sbrk_body ops P s).vaddr = (s.vaddr + P) % 2 ^ 32 := by
      show ((sbrk_probe ops P s).vaddr + P) % 2 ^ 32 = (s.vaddr + P) % 2 ^ 32
      rw [sbrk_probe_vaddr]
    show (sbrk_steps ops P k (sbrk_body ops P s)).vaddr = _
    rw [ih _ (by rw [hv]; exact Nat.mod_lt _ (by norm_num)), hv, Nat.mod_add_mod]
    congr 1
    ring

theorem toUInt32_neg (a : Int) (h0 : a < 0) (h1 : -2 ^ 32 ≤ a) :
    ((toUInt32 a : Nat) : Int) = a + 2 ^ 32 := by
  unfold toUInt32
  have he : a % 2 ^ 32 = a + 2 ^ 32 := by
    have h2 : (a + 2 ^ 32) % 2 ^ 32 = a + 2 ^ 32 := Int.emod_eq_of_lt (by omega) (by omega)
    rw [← h2]
    simp
  rw [he, Int.toNat_of_nonneg (by omega)]

theorem sys_sbrk_none_of_loop {PT : Type} (ops : PageOps PT) (P fuel : Nat)
    (current : Process PT) (a : Int)
    (h : sbrk_loop ops P (toUInt32 a) fuel 0 ⟨current.pagetable, current.brk % 2 ^ 32, []⟩
      = none) :
    sys_sbrk ops P fuel current a = none := by
  unfold sys_sbrk
  simp only
  rw [h]

/-- C19: with the 32-bit unsigned loop counter and a page size that divides
`2 ^ 32`, the page walk of `sys_sbrk(a)` returns if and only if
`(unsigned)a <= 2 ^ 32 - PAGE_SIZE`. For `a >= 0` the loop returns after
exactly `ceil(a / PAGE_SIZE)` trips (it has not returned with fuel for fewer
tests of its condition), the address probed in trip `k`, and by the probe
after the loop for `k = ceil(a / PAGE_SIZE)`, is `brk + k * PAGE_SIZE` modulo
`2 ^ 32`; for `a` in `[-(PAGE_SIZE - 1), -1]` the call never returns. -/
theorem sys_sbrk_terminates_iff {PT : Type} (ops : PageOps PT) (PAGE_SIZE : Nat)
    (current : Process PT) (a : Int)
    (hP : 0 < PAGE_SIZE) (hP31 : PAGE_SIZE ≤ 2 ^ 31) (hdvd : PAGE_SIZE ∣ 2 ^ 32)
    (ha31 : a < 2 ^ 31) :
    ((∃ fuel, (sys_sbrk ops PAGE_SIZE fuel current a).isSome = true)
      ↔ toUInt32 a ≤ 2 ^ 32 - PAGE_SIZE) ∧
    (0 ≤ a →
      (∀ fuel, sbrk_loop ops PAGE_SIZE (toUInt32 a) fuel 0
          ⟨current.pagetable, current.brk % 2 ^ 32, []⟩
        = if fuel ≤ (a.toNat + PAGE_SIZE - 1) / PAGE_SIZE then none
          else some (sbrk_steps ops PAGE_SIZE ((a.toNat + PAGE_SIZE - 1) / PAGE_SIZE)
            ⟨current.pagetable, current.brk % 2 ^ 32, []⟩)) ∧
      (∀ k, (sbrk_steps ops PAGE_SIZE k
          ⟨current.pagetable, current.brk % 2 ^ 32, []⟩).vaddr
        = (current.brk + k * PAGE_SIZE) % 2 ^ 32) ∧
      (∀ fuel, (a.toNat + PAGE_SIZE - 1) / PAGE_SIZE < fuel →
        ∃ r, sys_sbrk ops PAGE_SIZE fuel current a = some r ∧
          r.proc.pagetable = (sbrk_probe ops PAGE_SIZE (sbrk_steps ops PAGE_SIZE
            ((a.toNat + PAGE_SIZE - 1) / PAGE_SIZE)
            ⟨current.pagetable, current.brk % 2 ^ 32, []⟩)).pagetable)) ∧
    (-(PAGE_SIZE : Int) < a → a < 0 → ∀ fuel, sys_sbrk ops PAGE_SIZE fuel current a = none) := by
  have hnever : 2 ^ 32 - PAGE_SIZE < toUInt32 a →
      ∀ fuel, sys_sbrk ops PAGE_SIZE fuel current a = none := by
    intro h fuel
    exact sys_sbrk_none_of_loop ops PAGE_SIZE fuel current a
      (sbrk_loop_wraps ops PAGE_SIZE (toUInt32 a) hdvd h fuel 0 _ (dvd_zero _) (by norm_num))
  have hloop : toUInt32 a + PAGE_SIZE ≤ 2 ^ 32 → ∀ fuel,
      sbrk_loop ops PAGE_SIZE (toUInt32 a) fuel 0 ⟨current.pagetable, current.brk % 2 ^ 32, []⟩
        = if fuel ≤ sbrk_trips PAGE_SIZE (toUInt32 a) 0 then none
          else some (sbrk_steps ops PAGE_SIZE (sbrk_trips PAGE_SIZE (toUInt32 a) 0)
            ⟨current.pagetable, current.brk % 2 ^ 32, []⟩) := by
    intro h fuel
    by_cases hf : fuel ≤ sbrk_trips PAGE_SIZE (toUInt32 a) 0
    · rw [if_pos hf]
      exact sbrk_loop_none_of_le ops PAGE_SIZE (toUInt32 a) hP h fuel 0 _ hf
    · rw [if_neg hf]
      exact sbrk_loop_eq ops PAGE_SIZE (toUInt32 a) hP h fuel 0 _ (by omega)
  have hsome : toUInt32 a + PAGE_SIZE ≤ 2 ^ 32 → ∀ fuel,
      sbrk_trips PAGE_SIZE (toUInt32 a) 0 < fuel →
      ∃ r, sys_sbrk ops PAGE_SIZE fuel current a = some r ∧
        r.proc.pagetable = (sbrk_probe ops PAGE_SIZE (sbrk_steps ops PAGE_SIZE
          (sbrk_trips PAGE_SIZE (toUInt32 a) 0)
          ⟨current.pagetable, current.brk % 2 ^ 32, []⟩)).pagetable := by
    intro h fuel hf
    have e : sys_sbrk ops PAGE_SIZE fuel current a = some
        { ret := toInt32 (current.brk % 2 ^ 32)
          proc :=
            { current with
              brk := toUInt32 ((current.brk : Int) + a)
              pagetable := (sbrk_probe ops PAGE_SIZE (sbrk_steps ops PAGE_SIZE
                (sbrk_trips PAGE_SIZE (toUInt32 a) 0)
                ⟨current.pagetable, current.brk % 2 ^ 32, []⟩)).pagetable }
          allocs := (sbrk_probe ops PAGE_SIZE (sbrk_steps ops PAGE_SIZE
                (sbrk_trips PAGE_SIZE (toUInt32 a) 0)
                ⟨current.pagetable, current.brk % 2 ^ 32, []⟩)).allocs } := by
      unfold sys_sbrk
      simp only
      rw [sbrk_loop_eq ops PAGE_SIZE (toUInt32 a) hP h fuel 0 _ hf]
    exact ⟨_, e, rfl⟩
  refine ⟨⟨?_, ?_⟩, ?_, ?_⟩
  · rintro ⟨fuel, hf⟩
    by_contra hc
    rw [hnever (by omega) fuel] at hf
    exact absurd hf (by simp)
  · intro h
    obtain ⟨r, hr, _⟩ := hsome (by omega) (sbrk_trips PAGE_SIZE (toUInt32 a) 0 + 1) (by omega)
    exact ⟨_, by rw [hr]; rfl⟩
  · intro ha0
    have hua : toUInt32 a = a.toNat := toUInt32_of_nonneg a ha0 (by omega)
    have htr : sbrk_trips PAGE_SIZE a.toNat 0 = (a.toNat + PAGE_SIZE - 1) / PAGE_SIZE := rfl
    have hle : toUInt32 a + PAGE_SIZE ≤ 2 ^ 32 := by rw [hua]; omega
    refine ⟨?_, ?_, ?_⟩
    · intro fuel
      have := hloop hle fuel
      rw [hua, htr] at this
      rw [hua]
      exact this
    · intro k
      rw [sbrk_steps_vaddr ops PAGE_SIZE k _ (Nat.mod_lt _ (by norm_num))]
      show (current.brk % 2 ^ 32 + k * PAGE_SIZE) % 2 ^ 32 = _
      rw [Nat.mod_add_mod]
    · intro fuel hf
      have := hsome hle fuel (by rw [hua, htr]; exact hf)
      rw [hua, htr] at this
      exact this
  · intro hlow hneg
    have hP' : (PAGE_SIZE : Int) ≤ 2 ^ 31 := by exact_mod_cast hP31
    have hu := toUInt32_neg a hneg (by omega)
    exact hnever (by omega)

/-- C19 at a concrete input: page size 4096, break `0x80000ff0`, delta 5000. -/
theorem sys_sbrk_terminates_iff_witness :
    ((∃ fuel, (sys_sbrk (simpleOps 4096) 4096 fuel (exampleProc 2147487728 []) 5000).isSome
        = true)
      ↔ toUInt32 5000 ≤ 2 ^ 32 - 4096) ∧
    ((0 : Int) ≤ 5000 →
      (∀ fuel, sbrk_loop (simpleOps 4096) 4096 (toUInt32 5000) fuel 0
          ⟨(exampleProc 2147487728 []).pagetable, (exampleProc 2147487728 []).brk % 2 ^ 32, []⟩
        = if fuel ≤ ((5000 : Int).toNat + 4096 - 1) / 4096 then none
          else some (sbrk_steps (simpleOps 4096) 4096 (((5000 : Int).toNat + 4096 - 1) / 4096)
            ⟨(exampleProc 2147487728 []).pagetable,
              (exampleProc 2147487728 []).brk % 2 ^ 32, []⟩)) ∧
      (∀ k, (sbrk_steps (simpleOps 4096) 4096 k
          ⟨(exampleProc 2147487728 []).pagetable,
            (exampleProc 2147487728 []).brk % 2 ^ 32, []⟩).vaddr
        = ((exampleProc 2147487728 []).brk + k * 4096) % 2 ^ 32) ∧
      (∀ fuel, ((5000 : Int).toNat + 4096 - 1) / 4096 < fuel →
        ∃ r, sys_sbrk (simpleOps 4096) 4096 fuel (exampleProc 2147487728 []) 5000 = some r ∧
          r.proc.pagetable = (sbrk_probe (simpleOps 4096) 4096 (sbrk_steps (simpleOps 4096) 4096
            (((5000 : Int).toNat + 4096 - 1) / 4096)
            ⟨(exampleProc 2147487728 []).pagetable,
              (exampleProc 2147487728 []).brk % 2 ^ 32, []⟩)).pagetable)) ∧
    (-((4096 : Nat) : Int) < 5000 → (5000 : Int) < 0 →
      ∀ fuel, sys_sbrk (simpleOps 4096) 4096 fuel (exampleProc 2147487728 []) 5000 = none) :=
  sys_sbrk_terminates_iff (simpleOps 4096) 4096 (exampleProc 2147487728 []) 5000
    (by decide) (by decide) (by decide) (by decide)

/-! ## Strings shorter than the buffer -/

/-- The loop of `printf_buffer` for a length below `PAGE_SIZE - 1`: one trip. -/
theorem printf_buffer_loop_short (P fuel : Nat) (st : Stdio) (s : List Nat) (len : Nat)
    (h0 : len ≠ 0) (hlen : len < P - 1) :
    printf_buffer_loop P (fuel + 2) st s len = some
      { stdio_buffer :=
          memcpy
            (if len > usub32 (usub32 P st.stdio_buffer_index) 1 then flush P st
              else st).stdio_buffer
            (if len > usub32 (usub32 P st.stdio_buffer_index) 1 then flush P st
              else st).stdio_buffer_index s len
        stdio_buffer_index :=
          ((if len > usub32 (usub32 P st.stdio_buffer_index) 1 then flush P st
              else st).stdio_buffer_index + len) % 2 ^ 32
        debug_out :=
          (if len > usub32 (usub32 P st.stdio_buffer_index) 1 then flush P st
            else st).debug_out } := by
  have h1 : len % (P - 1) = len := Nat.mod_eq_of_lt hlen
  unfold printf_buffer_loop
  rw [if_neg h0]
  simp only [h1, Nat.sub_self]
  unfold printf_buffer_loop
  rw [if_pos rfl]

/-- A string shorter than `PAGE_SIZE - 1` that fits behind the cursor is
copied there. -/
theorem printf_buffer_loop_short_fits (P fuel : Nat) (st : Stdio) (s : List Nat) (len : Nat)
    (hP32 : P < 2 ^ 32) (h0 : len ≠ 0) (hlen : len < P - 1)
    (hidx : st.stdio_buffer_index ≤ P - 1) (hfit : len ≤ P - 1 - st.stdio_buffer_index) :
    printf_buffer_loop P (fuel + 2) st s len = some
      { stdio_buffer := memcpy st.stdio_buffer st.stdio_buffer_index s len
        stdio_buffer_index := st.stdio_buffer_index + len
        debug_out := st.debug_out } := by
  have hu : usub32 (usub32 P st.stdio_buffer_index) 1 = P - st.stdio_buffer_index - 1 := by
    rw [usub32_of_le P _ (by omega) hP32, usub32_of_le _ 1 (by omega) (by omega)]
  have hno : ¬ (len > usub32 (usub32 P st.stdio_buffer_index) 1) := by rw [hu]; omega
  have hw : (st.stdio_buffer_index + len) % 2 ^ 32 = st.stdio_buffer_index + len :=
    Nat.mod_eq_of_lt (by omega)
  rw [printf_buffer_loop_short P fuel st s len h0 hlen, if_neg hno, hw]

/-- A string shorter than `PAGE_SIZE - 1` that does not fit behind the cursor
is copied to the start of the buffer after a flush. -/
theorem printf_buffer_loop_short_flush (P fuel : Nat) (st : Stdio) (s : List Nat) (len : Nat)
    (hP32 : P < 2 ^ 32) (hlen : len < P - 1)
    (hidx : st.stdio_buffer_index ≤ P - 1) (hnofit : P - 1 - st.stdio_buffer_index < len) :
    printf_buffer_loop P (fuel + 2) st s len = some
      { stdio_buffer := memcpy (Function.update st.stdio_buffer 0 0) 0 s len
        stdio_buffer_index := 0 + len
        debug_out := st.debug_out ++ [cstring st.stdio_buffer 0 P] } := by
  have hu : usub32 (usub32 P st.stdio_buffer_index) 1 = P - st.stdio_buffer_index - 1 := by
    rw [usub32_of_le P _ (by omega) hP32, usub32_of_le _ 1 (by omega) (by omega)]
  have hyes : len > usub32 (usub32 P st.stdio_buffer_index) 1 := by rw [hu]; omega
  have hw : (0 + len) % 2 ^ 32 = 0 + len := Nat.mod_eq_of_lt (by omega)
  rw [printf_buffer_loop_short P fuel st s len (by omega) hlen, if_pos hyes]
  unfold flush
  dsimp only
  rw [hw]

theorem map_getD_range (s : List Nat) :
    ∀ n, n ≤ s.length → (List.range n).map (fun j => s.getD j 0) = s.take n := by
  induction s with
  | nil =>
    intro n hn
    have : n = 0 := by simpa using hn
    subst this
    rfl
  | cons b t ih =>
    intro n hn
    cases n with
    | zero => rfl
    | succ m =>
      rw [List.range_succ_eq_map, List.map_cons, List.map_map, List.take_succ_cons]
      have hm : m ≤ t.length := by simpa using hn
      rw [← ih m hm]
      rfl

theorem strlen_le_length (s : List Nat) : strlen s ≤ s.length := by
  unfold strlen
  exact (List.takeWhile_sublist _).length_le

/-- The staged bytes once `len` bytes of `s` have been copied behind `idx`
bytes and the terminator has been written. -/
theorem staged_after_copy (buf : Nat → Nat) (idx : Nat) (s : List Nat) (len : Nat) :
    (List.range (idx + len)).map (Function.update (memcpy buf idx s len) (idx + len) 0)
      = (List.range idx).map buf ++ (List.range len).map (fun j => s.getD j 0) := by
  rw [List.range_add, List.map_append, List.map_map]
  congr 1
  · apply List.map_congr_left
    intro j hj
    have hj1 : j < idx := List.mem_range.mp hj
    have hne : j ≠ idx + len := by omega
    rw [Function.update_noteq hne]
    unfold memcpy
    rw [if_neg (by omega)]
  · apply List.map_congr_left
    intro j hj
    have hj1 : j < len := List.mem_range.mp hj
    have hne : idx + j ≠ idx + len := by omega
    show Function.update (memcpy buf idx s len) (idx + len) 0 (idx + j) = s.getD j 0
    rw [Function.update_noteq hne]
    unfold memcpy
    rw [if_pos (by omega), Nat.add_sub_cancel_left]

/-- The text that `debug` reads from a buffer that satisfies the invariant and
has no null byte staged is the staged bytes. -/
theorem cstring_of_inv (buf : Nat → Nat) (idx P : Nat) (hidx : idx < P)
    (hnz : ∀ i, i < idx → buf i ≠ 0) (hterm : buf idx = 0) :
    cstring buf 0 P = (List.range idx).map buf := by
  rw [cstring_eq buf P 0 idx (fun j hj => by rw [Nat.zero_add]; exact hnz j hj)
    (by rw [Nat.zero_add]; exact hterm) hidx]
  apply List.map_congr_left
  intro j _
  show buf (0 + j) = buf j
  rw [Nat.zero_add]

/-- What `printf_buffer` returns once its loop is known to return. -/
theorem printf_buffer_of_loop (P fuel : Nat) (st : Stdio) (s : List Nat) (len : Nat)
    (st1 : Stdio) (h : printf_buffer_loop P fuel st s len = some st1) :
    printf_buffer P fuel st s len = some
      { st1 with
        stdio_buffer := Function.update st1.stdio_buffer st1.stdio_buffer_index 0 } := by
  unfold printf_buffer
  rw [h]

/-- C11 as stated fails when a null byte is staged. From the initial state,
`printf_putchar(0)` and a string of 4094 letters fill the buffer without a
flush (cursor 4095, byte 1 is a letter); `printf_putstring("b")` then flushes
once, but the text that `debug` receives is empty, so the 4095 staged bytes
are passed on by nobody: what was flushed and what is staged afterwards is the
one byte `b`. -/
theorem printf_putstring_short_counterexample :
    (((printf_putchar 4096 2 Stdio.init 0).bind
        (fun st => printf_putstring 4096 2 st (List.replicate 4094 97))).map
      (fun st => (st.stdio_buffer_index, st.debug_out, st.stdio_buffer 1))
        = some (4095, [], 97)) ∧
    ((((printf_putchar 4096 2 Stdio.init 0).bind
        (fun st => printf_putstring 4096 2 st (List.replicate 4094 97))).bind
        (fun st => printf_putstring 4096 2 st [98])).map
      (fun st => (st.debug_out, staged st)) = some ([[]], [98])) := by
  unfold printf_putstring
  rw [strlen_replicate 4094 97 (by decide)]
  refine ⟨by decide, by decide⟩

/-- C11, amended: for a string `s` with `strlen(s) < PAGE_SIZE - 1`,
`printf_putstring(s)` flushes if and only if `strlen(s)` exceeds the remaining
capacity `PAGE_SIZE - 1 - cursor`; a string that fits is appended to the
staged bytes without a flush; one that does not fit causes exactly one flush,
of the buffer as it was before the copy, after which the staged bytes are the
bytes of `s`; and when the buffer satisfies its invariant and no null byte is
staged, the flushed text is the bytes staged before. -/
theorem printf_putstring_short (P fuel : Nat) (st : Stdio) (s : List Nat)
    (hP32 : P < 2 ^ 32) (hidx : st.stdio_buffer_index ≤ P - 1) (hlen : strlen s < P - 1) :
    ∃ st1, printf_putstring P (fuel + 2) st s = some st1 ∧
      (strlen s ≤ P - 1 - st.stdio_buffer_index →
        st1.debug_out = st.debug_out ∧ staged st1 = staged st ++ s.take (strlen s)) ∧
      (P - 1 - st.stdio_buffer_index < strlen s →
        st1.debug_out = st.debug_out ++ [cstring st.stdio_buffer 0 P] ∧
        staged st1 = s.take (strlen s) ∧
        ((∀ i, i < st.stdio_buffer_index → st.stdio_buffer i ≠ 0) →
          st.stdio_buffer st.stdio_buffer_index = 0 →
          cstring st.stdio_buffer 0 P = staged st)) := by
  have hmod : strlen s % 2 ^ 32 = strlen s := Nat.mod_eq_of_lt (by omega)
  have hbytes := map_getD_range s (strlen s) (strlen_le_length s)
  unfold printf_putstring
  rw [hmod]
  by_cases h0 : strlen s = 0
  · have hl : printf_buffer_loop P (fuel + 2) st s (strlen s) = some st := by
      unfold printf_buffer_loop
      rw [if_pos h0]
    rw [printf_buffer_of_loop P _ st s _ st hl]
    refine ⟨_, rfl, ?_, fun h => absurd h (by omega)⟩
    intro _
    refine ⟨rfl, ?_⟩
    rw [h0, List.take_zero, List.append_nil]
    unfold staged
    apply List.map_congr_left
    intro j hj
    have hne : j ≠ st.stdio_buffer_index := by
      have := List.mem_range.mp hj
      exact Nat.ne_of_lt this
    exact Function.update_noteq hne _ _
  · by_cases hfit : strlen s ≤ P - 1 - st.stdio_buffer_index
    · rw [printf_buffer_of_loop P _ st s _ _
        (printf_buffer_loop_short_fits P fuel st s _ hP32 h0 hlen hidx hfit)]
      refine ⟨_, rfl, ?_, fun h => absurd h (by omega)⟩
      intro _
      refine ⟨rfl, ?_⟩
      unfold staged
      rw [← hbytes]
      exact staged_after_copy st.stdio_buffer st.stdio_buffer_index s (strlen s)
    · rw [printf_buffer_of_loop P _ st s _ _
        (printf_buffer_loop_short_flush P fuel st s _ hP32 hlen hidx (by omega))]
      refine ⟨_, rfl, fun h => absurd h hfit, ?_⟩
      intro _
      refine ⟨rfl, ?_, ?_⟩
      · unfold staged
        rw [← hbytes]
        have := staged_after_copy (Function.update st.stdio_buffer 0 0) 0 s (strlen s)
        rw [List.range_zero, List.map_nil, List.nil_append] at this
        exact this
      · intro hnz hterm
        exact cstring_of_inv st.stdio_buffer st.stdio_buffer_index P (by omega) hnz hterm

/-- C11, amended, at a concrete input: page size 4096, the letters `abc`
staged, the string `de`. -/
theorem printf_putstring_short_witness :
    ∃ st1, printf_putstring 4096 (0 + 2) ⟨fun i => if i < 3 then 97 + i else 0, 3, []⟩
        [100, 101] = some st1 ∧
      (strlen [100, 101] ≤ 4096 - 1 - 3 →
        st1.debug_out = [] ∧
        staged st1 = staged ⟨fun i => if i < 3 then 97 + i else 0, 3, []⟩
          ++ [100, 101].take (strlen [100, 101])) ∧
      (4096 - 1 - 3 < strlen [100, 101] →
        st1.debug_out = [] ++ [cstring (fun i => if i < 3 then 97 + i else 0) 0 4096] ∧
        staged st1 = [100, 101].take (strlen [100, 101]) ∧
        ((∀ i, i < 3 → (fun i => if i < 3 then 97 + i else 0) i ≠ 0) →
          (fun i => if i < 3 then 97 + i else 0) 3 = 0 →
          cstring (fun i => if i < 3 then 97 + i else 0) 0 4096
            = staged ⟨fun i => if i < 3 then 97 + i else 0, 3, []⟩)) :=
  printf_putstring_short 4096 0 ⟨fun i => if i < 3 then 97 + i else 0, 3, []⟩ [100, 101]
    (by decide) (by decide) (by decide)

/-! ## The invariant of the output buffer -/

/-- The shapes in which the loop of `printf_buffer` can return: at once for
the length 0, or after one trip for a length below `PAGE_SIZE - 1`, with or
without a flush. -/
theorem printf_buffer_loop_cases (P fuel : Nat) (st : Stdio) (s : List Nat) (len : Nat)
    (st1 : Stdio) (hP : 2 ≤ P) (hP32 : P < 2 ^ 32) (hidx : st.stdio_buffer_index ≤ P - 1)
    (h : printf_buffer_loop P fuel st s len = some st1) :
    (len = 0 ∧ st1 = st) ∨
    (len ≠ 0 ∧ len ≤ P - 1 - st.stdio_buffer_index ∧ len < P - 1 ∧
      st1 = { stdio_buffer := memcpy st.stdio_buffer st.stdio_buffer_index s len
              stdio_buffer_index := st.stdio_buffer_index + len
              debug_out := st.debug_out }) ∨
    (P - 1 - st.stdio_buffer_index < len ∧ len < P - 1 ∧
      st1 = { stdio_buffer := memcpy (Function.update st.stdio_buffer 0 0) 0 s len
              stdio_buffer_index := 0 + len
              debug_out := st.debug_out ++ [cstring st.stdio_buffer 0 P] }) := by
  by_cases hlen : P - 1 ≤ len
  · rw [printf_buffer_loop_diverges P hP s len hlen fuel st] at h
    exact absurd h (by simp)
  · cases fuel with
    | zero => exact absurd h (by simp [printf_buffer_loop])
    | succ f =>
      by_cases h0 : len = 0
      · unfold printf_buffer_loop at h
        rw [if_pos h0] at h
        exact Or.inl ⟨h0, (Option.some.inj h).symm⟩
      · cases f with
        | zero =>
          unfold printf_buffer_loop at h
          rw [if_neg h0] at h
          unfold printf_buffer_loop at h
          exact absurd h (by simp)
        | succ f =>
          by_cases hfit : len ≤ P - 1 - st.stdio_buffer_index
          · rw [printf_buffer_loop_short_fits P f st s len hP32 h0 (by omega) hidx hfit] at h
            exact Or.inr (Or.inl ⟨h0, hfit, by omega, (Option.some.inj h).symm⟩)
          · rw [printf_buffer_loop_short_flush P f st s len hP32 (by omega) hidx
              (by omega)] at h
            exact Or.inr (Or.inr ⟨by omega, by omega, (Option.some.inj h).symm⟩)

/-- A returning call of `printf_buffer` establishes the invariant and writes
no byte at an index from `PAGE_SIZE` on. -/
theorem printf_buffer_inv (P fuel : Nat) (st : Stdio) (s : List Nat) (len : Nat) (st1 : Stdio)
    (hP : 2 ≤ P) (hP32 : P < 2 ^ 32) (hidx : st.stdio_buffer_index ≤ P - 1)
    (h : printf_buffer P fuel st s len = some st1) :
    StdioInv P st1 ∧ ∀ i, P ≤ i → st1.stdio_buffer i = st.stdio_buffer i := by
  unfold printf_buffer at h
  cases hl : printf_buffer_loop P fuel st s len with
  | none => rw [hl] at h; exact absurd h (by simp)
  | some st0 =>
    rw [hl] at h
    have h1 : st1 = { st0 with
        stdio_buffer := Function.update st0.stdio_buffer st0.stdio_buffer_index 0 } :=
      (Option.some.inj h).symm
    have hterm : st1.stdio_buffer st1.stdio_buffer_index = 0 := by
      rw [h1]
      exact Function.update_same _ _ _
    rcases printf_buffer_loop_cases P fuel st s len st0 hP hP32 hidx hl with
      ⟨_, hst⟩ | ⟨_, hfit, _, hst⟩ | ⟨_, hlt, hst⟩
    · have hi : st1.stdio_buffer_index = st.stdio_buffer_index := by rw [h1, hst]
      refine ⟨⟨by rw [hi]; exact hidx, hterm⟩, ?_⟩
      intro i hi2
      rw [h1, hst]
      exact Function.update_noteq (by omega) _ _
    · have hi : st1.stdio_buffer_index = st.stdio_buffer_index + len := by rw [h1, hst]
      refine ⟨⟨by rw [hi]; omega, hterm⟩, ?_⟩
      intro i hi2
      rw [h1, hst]
      show Function.update (memcpy st.stdio_buffer st.stdio_buffer_index s len)
        (st.stdio_buffer_index + len) 0 i = st.stdio_buffer i
      rw [Function.update_noteq (by omega)]
      unfold memcpy
      rw [if_neg (by omega)]
    · have hi : st1.stdio_buffer_index = 0 + len := by rw [h1, hst]
      refine ⟨⟨by rw [hi]; omega, hterm⟩, ?_⟩
      intro i hi2
      rw [h1, hst]
      show Function.update (memcpy (Function.update st.stdio_buffer 0 0) 0 s len)
        (0 + len) 0 i = st.stdio_buffer i
      rw [Function.update_noteq (by omega)]
      unfold memcpy
      rw [if_neg (by omega)]
      exact Function.update_noteq (by omega) _ _

/-- The function `flush` establishes the invariant, leaves the buffer empty
and writes the one byte at index 0. -/
theorem flush_inv (P : Nat) (st : Stdio) (hP : 1 ≤ P) :
    StdioInv P (flush P st) ∧ (flush P st).stdio_buffer_index = 0 ∧
      staged (flush P st) = [] ∧ cstring (flush P st).stdio_buffer 0 P = [] ∧
      ∀ i, P ≤ i → (flush P st).stdio_buffer i = st.stdio_buffer i := by
  obtain ⟨n, hn⟩ : ∃ n, P = n + 1 := ⟨P - 1, by omega⟩
  subst hn
  have h0 : (flush (n + 1) st).stdio_buffer 0 = 0 := by
    show Function.update st.stdio_buffer 0 0 0 = 0
    exact Function.update_same _ _ _
  refine ⟨⟨Nat.zero_le _, h0⟩, rfl, rfl, ?_, ?_⟩
  · unfold cstring
    rw [if_pos h0]
  · intro i hi
    show Function.update st.stdio_buffer 0 0 i = st.stdio_buffer i
    exact Function.update_noteq (by omega) _ _

/-- C12: the invariant `cursor <= PAGE_SIZE - 1` and `buffer[cursor] = 0`
holds initially and after every returning call of `flush`, `printf_putchar`
and `printf_putstring` on a state that satisfies it; these calls leave every
byte at an index from `PAGE_SIZE` on as it was; and right after a flush the
cursor is 0 and the buffer holds the empty string. -/
theorem stdio_invariant (P : Nat) (hP : 2 ≤ P) (hP32 : P < 2 ^ 32) :
    StdioInv P Stdio.init ∧
    (∀ st, StdioInv P st →
      StdioInv P (flush P st) ∧ (flush P st).stdio_buffer_index = 0 ∧
      staged (flush P st) = [] ∧ cstring (flush P st).stdio_buffer 0 P = [] ∧
      ∀ i, P ≤ i → (flush P st).stdio_buffer i = st.stdio_buffer i) ∧
    (∀ fuel st c st1, StdioInv P st → printf_putchar P fuel st c = some st1 →
      StdioInv P st1 ∧ ∀ i, P ≤ i → st1.stdio_buffer i = st.stdio_buffer i) ∧
    (∀ fuel st s st1, StdioInv P st → printf_putstring P fuel st s = some st1 →
      StdioInv P st1 ∧ ∀ i, P ≤ i → st1.stdio_buffer i = st.stdio_buffer i) := by
  refine ⟨⟨Nat.zero_le _, rfl⟩, fun st _ => flush_inv P st (by omega), ?_, ?_⟩
  · intro fuel st c st1 hinv h
    unfold printf_putchar at h
    cases hb : printf_buffer P fuel st [c] 1 with
    | none => rw [hb] at h; exact absurd h (by simp)
    | some st0 =>
      rw [hb] at h
      obtain ⟨hinv0, hframe0⟩ := printf_buffer_inv P fuel st [c] 1 st0 hP hP32 hinv.1 hb
      have h1 : st1 = if c = 10 then flush P st0 else st0 := (Option.some.inj h).symm
      by_cases hc : c = 10
      · rw [if_pos hc] at h1
        obtain ⟨hf1, _, _, _, hf2⟩ := flush_inv P st0 (by omega)
        rw [h1]
        exact ⟨hf1, fun i hi => by rw [hf2 i hi, hframe0 i hi]⟩
      · rw [if_neg hc] at h1
        rw [h1]
        exact ⟨hinv0, hframe0⟩
  · intro fuel st s st1 hinv h
    exact printf_buffer_inv P fuel st s _ st1 hP hP32 hinv.1 h

/-- C12 at a concrete input: the page size 4096. -/
theorem stdio_invariant_witness :
    StdioInv 4096 Stdio.init ∧
    (∀ st, StdioInv 4096 st →
      StdioInv 4096 (flush 4096 st) ∧ (flush 4096 st).stdio_buffer_index = 0 ∧
      staged (flush 4096 st) = [] ∧ cstring (flush 4096 st).stdio_buffer 0 4096 = [] ∧
      ∀ i, 4096 ≤ i → (flush 4096 st).stdio_buffer i = st.stdio_buffer i) ∧
    (∀ fuel st c st1, StdioInv 4096 st → printf_putchar 4096 fuel st c = some st1 →
      StdioInv 4096 st1 ∧ ∀ i, 4096 ≤ i → st1.stdio_buffer i = st.stdio_buffer i) ∧
    (∀ fuel st s st1, StdioInv 4096 st → printf_putstring 4096 fuel st s = some st1 →
      StdioInv 4096 st1 ∧ ∀ i, 4096 ≤ i → st1.stdio_buffer i = st.stdio_buffer i) :=
  stdio_invariant 4096 (by decide) (by decide)

/-! ## Theorems about the dispatcher -/

theorem declared_handler_cons (k : Nat) (call : HandlerCall) (rest : List (Nat × HandlerCall))
    (n : Nat) :
    declared_handler ((k, call) :: rest) n
      = if n = k then some call else declared_handler rest n := rfl

/-- The switch of `syscall_handler` calls the handler that the first matching
row of the declared table names, and returns `-1` when no row matches. -/
theorem syscall_handler_eq_declared {PT : Type} (cfg : Config PT) (fuel : Nat)
    (m : Machine PT) (n a b c d e : Nat) :
    syscall_handler cfg fuel m n a b c d e =
      match declared_handler (declared_table cfg.nums a b c d e) n with
      | some call => invoke cfg fuel m call
      | none => some (-1, m) := by
  unfold syscall_handler declared_table
  by_cases h0 : n = cfg.nums.SYSCALL_EXIT
  · rw [if_pos h0, declared_handler_cons, if_pos h0]
  rw [if_neg h0, declared_handler_cons, if_neg h0]
  by_cases h1 : n = cfg.nums.SYSCALL_DEBUG
  · rw [if_pos h1, declared_handler_cons, if_pos h1]
  rw [if_neg h1, declared_handler_cons, if_neg h1]
  by_cases h2 : n = cfg.nums.SYSCALL_YIELD
  · rw [if_pos h2, declared_handler_cons, if_pos h2]
  rw [if_neg h2, declared_handler_cons, if_neg h2]
  by_cases h3 : n = cfg.nums.SYSCALL_OPEN
  · rw [if_pos h3, declared_handler_cons, if_pos h3]
  rw [if_neg h3, declared_handler_cons, if_neg h3]
  by_cases h4 : n = cfg.nums.SYSCALL_READ
  · rw [if_pos h4, declared_handler_cons, if_pos h4]
  rw [if_neg h4, declared_handler_cons, if_neg h4]
  by_cases h5 : n = cfg.nums.SYSCALL_WRITE
  · rw [if_pos h5, declared_handler_cons, if_pos h5]
  rw [if_neg h5, declared_handler_cons, if_neg h5]
  by_cases h6 : n = cfg.nums.SYSCALL_LSEEK
  · rw [if_pos h6, declared_handler_cons, if_pos h6]
  rw [if_neg h6, declared_handler_cons, if_neg h6]
  by_cases h7 : n = cfg.nums.SYSCALL_SBRK
  · rw [if_pos h7, declared_handler_cons, if_pos h7]
  rw [if_neg h7, declared_handler_cons, if_neg h7]
  by_cases h8 : n = cfg.nums.SYSCALL_CLOSE
  · rw [if_pos h8, declared_handler_cons, if_pos h8]
  rw [if_neg h8, declared_handler_cons, if_neg h8]
  by_cases h9 : n = cfg.nums.SYSCALL_KEYBOARD_READ_CHAR
  · rw [if_pos h9, declared_handler_cons, if_pos h9]
  rw [if_neg h9, declared_handler_cons, if_neg h9]
  by_cases h10 : n = cfg.nums.SYSCALL_DRAW_CREATE
  · rw [if_pos h10, declared_handler_cons, if_pos h10]
  rw [if_neg h10, declared_handler_cons, if_neg h10]
  by_cases h11 : n = cfg.nums.SYSCALL_DRAW_WRITE
  · rw [if_pos h11, declared_handler_cons, if_pos h11]
  rw [if_neg h11, declared_handler_cons, if_neg h11]
  by_cases h12 : n = cfg.nums.SYSCALL_SLEEP
  · rw [if_pos h12, declared_handler_cons, if_pos h12]
  rw [if_neg h12, declared_handler_cons, if_neg h12]
  by_cases h13 : n = cfg.nums.SYSCALL_GETTIMEOFDAY
  · rw [if_pos h13, declared_handler_cons, if_pos h13]
  rw [if_neg h13, declared_handler_cons, if_neg h13]
  by_cases h14 : n = cfg.nums.SYSCALL_PROCESS_SELF
  · rw [if_pos h14, declared_handler_cons, if_pos h14]
  rw [if_neg h14, declared_handler_cons, if_neg h14]
  by_cases h15 : n = cfg.nums.SYSCALL_PROCESS_PARENT
  · rw [if_pos h15, declared_handler_cons, if_pos h15]
  rw [if_neg h15, declared_handler_cons, if_neg h15]
  by_cases h16 : n = cfg.nums.SYSCALL_PROCESS_RUN
  · rw [if_pos h16, declared_handler_cons, if_pos h16]
  rw [if_neg h16, declared_handler_cons, if_neg h16]
  by_cases h17 : n = cfg.nums.SYSCALL_PROCESS_KILL
  · rw [if_pos h17, declared_handler_cons, if_pos h17]
  rw [if_neg h17, declared_handler_cons, if_neg h17]
  by_cases h18 : n = cfg.nums.SYSCALL_PROCESS_WAIT
  · rw [if_pos h18, declared_handler_cons, if_pos h18]
  rw [if_neg h18, declared_handler_cons, if_neg h18]
  by_cases h19 : n = cfg.nums.SYSCALL_PROCESS_REAP
  · rw [if_pos h19, declared_handler_cons, if_pos h19]
  rw [if_neg h19, declared_handler_cons, if_neg h19]
  rfl

theorem declared_ids_eq (nums : SyscallNumbers) (a b c d e : Nat) :
    (declared_table nums a b c d e).map Prod.fst = declared_ids nums := rfl

theorem declared_handler_none (table : List (Nat × HandlerCall)) (n : Nat)
    (h : n ∉ table.map Prod.fst) : declared_handler table n = none := by
  induction table with
  | nil => rfl
  | cons row rest ih =>
    obtain ⟨k, call⟩ := row
    have hk : n ≠ k := fun he => h (by simp [he])
    have hrest : n ∉ rest.map Prod.fst := fun hm => h (by simp [List.mem_map] at hm ⊢; exact Or.inr hm)
    unfold declared_handler
    rw [if_neg hk]
    exact ih hrest

theorem declared_handler_of_mem (table : List (Nat × HandlerCall))
    (hnodup : (table.map Prod.fst).Nodup) (row : Nat × HandlerCall) (hrow : row ∈ table) :
    declared_handler table row.1 = some row.2 := by
  induction table with
  | nil => exact absurd hrow (List.not_mem_nil row)
  | cons first rest ih =>
    obtain ⟨k, call⟩ := first
    rw [List.map_cons, List.nodup_cons] at hnodup
    unfold declared_handler
    rcases List.mem_cons.mp hrow with h | h
    · rw [h, if_pos rfl]
    · have hne : row.1 ≠ k := by
        intro he
        apply hnodup.1
        rw [← he]
        exact List.mem_map.mpr ⟨row, h, rfl⟩
      rw [if_neg hne]
      exact ih hnodup.2 h

/-- C13: for every call identifier that is not one of the twenty declared
ones and for all five argument words, `syscall_handler` returns `-1`, calls no
handler (the log of handler calls is as before) and leaves the kernel state
unchanged. -/
theorem syscall_handler_unknown {PT : Type} (cfg : Config PT) (fuel : Nat) (m : Machine PT)
    (n a b c d e : Nat) (h : n ∉ declared_ids cfg.nums) :
    syscall_handler cfg fuel m n a b c d e = some (-1, m) := by
  rw [syscall_handler_eq_declared,
    declared_handler_none _ n (by rw [declared_ids_eq]; exact h)]

/-- C13 at a concrete input: the identifier 20 with the numbering 0 to 19. -/
theorem syscall_handler_unknown_witness :
    syscall_handler (exampleConfig 0) 3 exampleMachine 20 1 2 3 4 5
      = some (-1, exampleMachine) :=
  syscall_handler_unknown (exampleConfig 0) 3 exampleMachine 20 1 2 3 4 5 (by decide)

/-- C17: for every declared call identifier (the twenty are pairwise distinct)
and all five argument words, `syscall_handler` calls exactly one handler, the
one that the declared table names for the identifier, once and with the
argument words in their declared positions, and returns what that handler
returns: when it returns, the log has grown by that one call and value and
kernel state are those of the handler. For `open`, `read`, `write`, `lseek`
and `close` the result is `ENOSYS` whatever the arguments, and the kernel state
is unchanged. -/
theorem syscall_handler_dispatch {PT : Type} (cfg : Config PT) (fuel : Nat) (m : Machine PT)
    (a b c d e : Nat) (hnodup : (declared_ids cfg.nums).Nodup) :
    (∀ row, row ∈ declared_table cfg.nums a b c d e →
      syscall_handler cfg fuel m row.1 a b c d e = invoke cfg fuel m row.2 ∧
      (∀ r m1, syscall_handler cfg fuel m row.1 a b c d e = some (r, m1) →
        m1.calls = m.calls ++ [row.2] ∧
        run_handler cfg fuel m.kernel row.2 = some (r, m1.kernel))) ∧
    syscall_handler cfg fuel m cfg.nums.SYSCALL_OPEN a b c d e
      = some (cfg.ext.ENOSYS,
          { kernel := m.kernel, calls := m.calls ++ [.sys_open a (toInt32 b) (toInt32 c)] }) ∧
    syscall_handler cfg fuel m cfg.nums.SYSCALL_READ a b c d e
      = some (cfg.ext.ENOSYS,
          { kernel := m.kernel, calls := m.calls ++ [.sys_read (toInt32 a) b (toInt32 c)] }) ∧
    syscall_handler cfg fuel m cfg.nums.SYSCALL_WRITE a b c d e
      = some (cfg.ext.ENOSYS,
          { kernel := m.kernel, calls := m.calls ++ [.sys_write (toInt32 a) b (toInt32 c)] }) ∧
    syscall_handler cfg fuel m cfg.nums.SYSCALL_LSEEK a b c d e
      = some (cfg.ext.ENOSYS,
          { kernel := m.kernel,
            calls := m.calls ++ [.sys_lseek (toInt32 a) (toInt32 b) (toInt32 c)] }) ∧
    syscall_handler cfg fuel m cfg.nums.SYSCALL_CLOSE a b c d e
      = some (cfg.ext.ENOSYS,
          { kernel := m.kernel, calls := m.calls ++ [.sys_close (toInt32 a)] }) := by
  have hrow : ∀ row, row ∈ declared_table cfg.nums a b c d e →
      syscall_handler cfg fuel m row.1 a b c d e = invoke cfg fuel m row.2 := by
    intro row hmem
    rw [syscall_handler_eq_declared,
      declared_handler_of_mem _ (by rw [declared_ids_eq]; exact hnodup) row hmem]
  refine ⟨?_, ?_, ?_, ?_, ?_, ?_⟩
  · intro row hmem
    refine ⟨hrow row hmem, ?_⟩
    intro r m1 h
    rw [hrow row hmem] at h
    unfold invoke at h
    cases hr : run_handler cfg fuel m.kernel row.2 with
    | none => rw [hr] at h; exact absurd h (by simp)
    | some res =>
      obtain ⟨r0, k0⟩ := res
      rw [hr] at h
      have h1 := Option.some.inj h
      have hr0 : r0 = r := congrArg Prod.fst h1
      have hm1 : m1 = { kernel := k0, calls := m.calls ++ [row.2] } := (congrArg Prod.snd h1).symm
      rw [hm1, hr0]
      exact ⟨rfl, rfl⟩
  · exact hrow (cfg.nums.SYSCALL_OPEN, .sys_open a (toInt32 b) (toInt32 c))
      (by simp [declared_table])
  · exact hrow (cfg.nums.SYSCALL_READ, .sys_read (toInt32 a) b (toInt32 c))
      (by simp [declared_table])
  · exact hrow (cfg.nums.SYSCALL_WRITE, .sys_write (toInt32 a) b (toInt32 c))
      (by simp [declared_table])
  · exact hrow (cfg.nums.SYSCALL_LSEEK, .sys_lseek (toInt32 a) (toInt32 b) (toInt32 c))
      (by simp [declared_table])
  · exact hrow (cfg.nums.SYSCALL_CLOSE, .sys_close (toInt32 a))
      (by simp [declared_table])

/-- C17 at a concrete input: the numbering 0 to 19 and the argument words 1
to 5. -/
theorem syscall_handler_dispatch_witness :
    (∀ row, row ∈ declared_table (exampleConfig 0).nums 1 2 3 4 5 →
      syscall_handler (exampleConfig 0) 3 exampleMachine row.1 1 2 3 4 5
        = invoke (exampleConfig 0) 3 exampleMachine row.2 ∧
      (∀ r m1, syscall_handler (exampleConfig 0) 3 exampleMachine row.1 1 2 3 4 5
          = some (r, m1) →
        m1.calls = exampleMachine.calls ++ [row.2] ∧
        run_handler (exampleConfig 0) 3 exampleMachine.kernel row.2 = some (r, m1.kernel))) ∧
    syscall_handler (exampleConfig 0) 3 exampleMachine (exampleConfig 0).nums.SYSCALL_OPEN
        1 2 3 4 5
      = some ((exampleConfig 0).ext.ENOSYS,
          { kernel := exampleMachine.kernel,
            calls := exampleMachine.calls ++ [.sys_open 1 (toInt32 2) (toInt32 3)] }) ∧
    syscall_handler (exampleConfig 0) 3 exampleMachine (exampleConfig 0).nums.SYSCALL_READ
        1 2 3 4 5
      = some ((exampleConfig 0).ext.ENOSYS,
          { kernel := exampleMachine.kernel,
            calls := exampleMachine.calls ++ [.sys_read (toInt32 1) 2 (toInt32 3)] }) ∧
    syscall_handler (exampleConfig 0) 3 exampleMachine (exampleConfig 0).nums.SYSCALL_WRITE
        1 2 3 4 5
      = some ((exampleConfig 0).ext.ENOSYS,
          { kernel := exampleMachine.kernel,
            calls := exampleMachine.calls ++ [.sys_write (toInt32 1) 2 (toInt32 3)] }) ∧
    syscall_handler (exampleConfig 0) 3 exampleMachine (exampleConfig 0).nums.SYSCALL_LSEEK
        1 2 3 4 5
      = some ((exampleConfig 0).ext.ENOSYS,
          { kernel := exampleMachine.kernel,
            calls := exampleMachine.calls
              ++ [.sys_lseek (toInt32 1) (toInt32 2) (toInt32 3)] }) ∧
    syscall_handler (exampleConfig 0) 3 exampleMachine (exampleConfig 0).nums.SYSCALL_CLOSE
        1 2 3 4 5
      = some ((exampleConfig 0).ext.ENOSYS,
          { kernel := exampleMachine.kernel,
            calls := exampleMachine.calls ++ [.sys_close (toInt32 1)] }) :=
  syscall_handler_dispatch (exampleConfig 0) 3 exampleMachine 1 2 3 4 5 (by decide)

/-- With pairwise distinct identifiers, the switch calls the handler of the
row whose identifier it is given. -/
theorem syscall_handler_row {PT : Type} (cfg : Config PT) (fuel : Nat) (m : Machine PT)
    (a b c d e : Nat) (hnodup : (declared_ids cfg.nums).Nodup) (row : Nat × HandlerCall)
    (hmem : row ∈ declared_table cfg.nums a b c d e) :
    syscall_handler cfg fuel m row.1 a b c d e = invoke cfg fuel m row.2 := by
  rw [syscall_handler_eq_declared,
    declared_handler_of_mem _ (by rw [declared_ids_eq]; exact hnodup) row hmem]

theorem toInt32_nonneg_iff (n : Nat) (h : n < 2 ^ 32) : 0 ≤ toInt32 n ↔ n < 2 ^ 31 := by
  unfold toInt32
  rw [Nat.mod_eq_of_lt h]
  split
  · next hlt => exact ⟨fun _ => hlt, fun _ => by omega⟩
  · next hge => exact ⟨fun hnn => by omega, fun hlt => absurd hlt hge⟩

/-- C14 as stated fails: with the break at `0x80000000` the dispatcher's
result for `sbrk(0)` is negative, and with a clock whose timestamp is
4102444800 (the year 2100) its result for `gettimeofday` is negative. -/
theorem syscall_result_sign_counterexample :
    (syscall_handler (exampleConfig 4102444800) 3 exampleMachine
        exampleNums.SYSCALL_SBRK 0 0 0 0 0).map Prod.fst = some (-2147483648) ∧
    exampleMachine.kernel.current.brk = 2147483648 ∧
    (syscall_handler (exampleConfig 4102444800) 3 exampleMachine
        exampleNums.SYSCALL_GETTIMEOFDAY 0 0 0 0 0).map Prod.fst = some (-192522496) ∧
    sys_gettimeofday (exampleConfig 4102444800).ext exampleMachine.kernel = 4102444800 := by
  refine ⟨by decide, by decide, by decide, by decide⟩

/-- C14, amended: for every process state and delta `a >= 0` the dispatcher's
result for `sbrk` is the old break reinterpreted as a signed 32-bit number: it
is non-negative exactly when the break is below `2 ^ 31`, and the break is
recovered from it modulo `2 ^ 32`; for every clock reading its result for
`gettimeofday` is the timestamp reinterpreted in the same way, non-negative
exactly when the timestamp is below `2 ^ 31`. -/
theorem syscall_result_sign {PT : Type} (cfg : Config PT) (fuel : Nat) (m : Machine PT)
    (a b c d e : Nat) (hnodup : (declared_ids cfg.nums).Nodup)
    (hP : 0 < cfg.PAGE_SIZE) (hP31 : cfg.PAGE_SIZE ≤ 2 ^ 31)
    (ha : a < 2 ^ 31) (hbrk : m.kernel.current.brk < 2 ^ 32)
    (hfuel : a / cfg.PAGE_SIZE + 1 < fuel) :
    (∃ r m1, syscall_handler cfg fuel m cfg.nums.SYSCALL_SBRK a b c d e = some (r, m1) ∧
      toUInt32 r = m.kernel.current.brk ∧
      (0 ≤ r ↔ m.kernel.current.brk < 2 ^ 31)) ∧
    (∃ r m1, syscall_handler cfg fuel m cfg.nums.SYSCALL_GETTIMEOFDAY a b c d e = some (r, m1) ∧
      toUInt32 r = sys_gettimeofday cfg.ext m.kernel ∧
      (0 ≤ r ↔ sys_gettimeofday cfg.ext m.kernel < 2 ^ 31)) := by
  have hmod : m.kernel.current.brk % 2 ^ 32 = m.kernel.current.brk := Nat.mod_eq_of_lt hbrk
  have hua : toUInt32 (toInt32 a) = a := toUInt32_toInt32 a (by omega)
  have hts : sys_gettimeofday cfg.ext m.kernel < 2 ^ 32 := Nat.mod_lt _ (by norm_num)
  refine ⟨?_, ?_⟩
  · have hrow := syscall_handler_row cfg fuel m a b c d e hnodup
      (cfg.nums.SYSCALL_SBRK, .sys_sbrk (toInt32 a)) (by simp [declared_table])
    have hs := sys_sbrk_eq cfg.ops cfg.PAGE_SIZE m.kernel.current (toInt32 a) fuel hP
      (by rw [hua]; omega) (by rw [hua]; exact hfuel)
    have hinv : invoke cfg fuel m (.sys_sbrk (toInt32 a)) = some
        (toInt32 (m.kernel.current.brk % 2 ^ 32),
          { kernel := { m.kernel with current :=
              { m.kernel.current with
                brk := toUInt32 ((m.kernel.current.brk : Int) + toInt32 a)
                pagetable := (sbrk_probe cfg.ops cfg.PAGE_SIZE (sbrk_steps cfg.ops cfg.PAGE_SIZE
                  (sbrk_trips cfg.PAGE_SIZE (toUInt32 (toInt32 a)) 0)
                  ⟨m.kernel.current.pagetable, m.kernel.current.brk % 2 ^ 32, []⟩)).pagetable } }
            calls := m.calls ++ [.sys_sbrk (toInt32 a)] }) := by
      unfold invoke run_handler
      simp only
      rw [hs]
    refine ⟨_, _, hrow.trans hinv, ?_, ?_⟩
    · rw [hmod]
      exact toUInt32_toInt32 _ hbrk
    · rw [hmod]
      exact toInt32_nonneg_iff _ hbrk
  · have hrow := syscall_handler_row cfg fuel m a b c d e hnodup
      (cfg.nums.SYSCALL_GETTIMEOFDAY, .sys_gettimeofday) (by simp [declared_table])
    have hinv : invoke cfg fuel m .sys_gettimeofday = some
        (toInt32 (sys_gettimeofday cfg.ext m.kernel),
          { kernel := m.kernel, calls := m.calls ++ [.sys_gettimeofday] }) := rfl
    exact ⟨_, _, hrow.trans hinv, toUInt32_toInt32 _ hts, toInt32_nonneg_iff _ hts⟩

/-- C14, amended, at a concrete input: the break `0x80000000`, delta 5000, a
clock that reads 1000. -/
theorem syscall_result_sign_witness :
    (∃ r m1, syscall_handler (exampleConfig 1000) 5 exampleMachine
        (exampleConfig 1000).nums.SYSCALL_SBRK 5000 0 0 0 0 = some (r, m1) ∧
      toUInt32 r = exampleMachine.kernel.current.brk ∧
      (0 ≤ r ↔ exampleMachine.kernel.current.brk < 2 ^ 31)) ∧
    (∃ r m1, syscall_handler (exampleConfig 1000) 5 exampleMachine
        (exampleConfig 1000).nums.SYSCALL_GETTIMEOFDAY 5000 0 0 0 0 = some (r, m1) ∧
      toUInt32 r = sys_gettimeofday (exampleConfig 1000).ext exampleMachine.kernel ∧
      (0 ≤ r ↔ sys_gettimeofday (exampleConfig 1000).ext exampleMachine.kernel < 2 ^ 31)) :=
  syscall_result_sign (exampleConfig 1000) 5 exampleMachine 5000 0 0 0 0
    (by decide) (by decide) (by decide) (by decide) (by decide) (by decide)

/-! ## The accesses to the window table are in bounds -/

/-- The instrumented `sys_draw_create` computes what `sys_draw_create`
computes. -/
theorem sys_draw_create_traced_fst {PT : Type} (env : KernelEnv PT) (k : Kernel PT)
    (wd x y w h : Int) :
    (sys_draw_create_traced env k wd x y w h).1 = sys_draw_create env k wd x y w h := by
  by_cases hg : (k.current.window_count ≥ (env.PROCESS_MAX_WINDOWS : Int) ∨ wd < 0 ∨
      wd ≥ k.current.window_count ∨
      (k.graphics (k.current.windows wd.toNat)).clip.w < wrap32 (x + w) ∨
      (k.graphics (k.current.windows wd.toNat)).clip.h < wrap32 (y + h))
  · rw [sys_draw_create_guard env k wd x y w h hg]
    unfold sys_draw_create_traced
    simp only
    split_ifs with h1 h2 h3 h4 h5 <;> first | rfl | (exfalso; tauto)
  · rw [sys_draw_create_pass env k wd x y w h hg]
    push_neg at hg
    obtain ⟨h1, h2, h3, h4, h5⟩ := hg
    unfold sys_draw_create_traced
    simp only
    rw [if_neg (by omega), if_neg (by omega), if_neg (by omega), if_neg (by omega),
      if_neg (by omega)]
    split_ifs <;> rfl

theorem retain_windows_traced_spec (windows : Nat → Nat) (mem : Nat → Graphics) :
    ∀ n : Nat,
      (List.range n).foldl
          (fun (acc : (Nat → Graphics) × List WinAccess) i =>
            (retain_window windows acc.1 i, acc.2 ++ [WinAccess.read (i : Int)])) (mem, [])
        = ((List.range n).foldl (retain_window windows) mem,
            (List.range n).map (fun (i : Nat) => WinAccess.read (i : Int))) := by
  intro n
  induction n with
  | zero => rfl
  | succ n ih =>
    rw [List.range_succ, List.foldl_append, List.foldl_append, List.map_append, ih]
    rfl

/-- The instrumented `sys_process_run` computes what `sys_process_run`
computes. -/
theorem sys_process_run_traced_fst {PT : Type} (env : KernelEnv PT) (k : Kernel PT)
    (path : List Nat) (argv : List (List Nat)) (argc : Int) :
    (sys_process_run_traced env k path argv argc).1 = sys_process_run env k path argv argc := by
  unfold sys_process_run_traced sys_process_run
  cases env.elf_load path with
  | none => rfl
  | some p =>
    simp only [retain_windows_traced, retain_windows, retain_windows_traced_spec]

/-- C20: every access to a window table is in bounds. In `sys_draw_create`,
for every signed `wd`, the entry `windows[wd]` is read only when
`0 <= wd < window_count` (and `window_count < PROCESS_MAX_WINDOWS`), and the
slot `windows[window_count]` is written, and read afterwards, only when
`0 <= window_count < PROCESS_MAX_WINDOWS`; in `sys_process_run`, under the
invariant `window_count <= PROCESS_MAX_WINDOWS` of the parent, the
reference-count loop reads only at indices below the `window_count` of the
child, which are below `PROCESS_MAX_WINDOWS`. -/
theorem window_accesses_in_bounds {PT : Type} (env : KernelEnv PT) (k : Kernel PT)
    (wd x y w h : Int) (path : List Nat) (argv : List (List Nat)) (argc : Int)
    (hinv : 0 ≤ k.current.window_count ∧
      k.current.window_count ≤ (env.PROCESS_MAX_WINDOWS : Int)) :
    (sys_draw_create_traced env k wd x y w h).1 = sys_draw_create env k wd x y w h ∧
    (∀ acc, acc ∈ (sys_draw_create_traced env k wd x y w h).2 →
      (acc = .read wd ∧ 0 ≤ wd ∧ wd < k.current.window_count ∧
        wd < (env.PROCESS_MAX_WINDOWS : Int)) ∨
      ((acc = .read k.current.window_count ∨ acc = .write k.current.window_count) ∧
        0 ≤ k.current.window_count ∧
        k.current.window_count < (env.PROCESS_MAX_WINDOWS : Int))) ∧
    (sys_process_run_traced env k path argv argc).1 = sys_process_run env k path argv argc ∧
    (∀ acc, acc ∈ (sys_process_run_traced env k path argv argc).2 →
      ∃ i : Nat, acc = .read (i : Int) ∧ (i : Int) < k.current.window_count ∧
        i < env.PROCESS_MAX_WINDOWS) := by
  refine ⟨sys_draw_create_traced_fst env k wd x y w h, ?_,
    sys_process_run_traced_fst env k path argv argc, ?_⟩
  · intro acc hacc
    unfold sys_draw_create_traced at hacc
    simp only at hacc
    split_ifs at hacc with h1 h2 h3 h4 h5 h6
    · exact absurd hacc (List.not_mem_nil acc)
    · exact absurd hacc (List.not_mem_nil acc)
    · exact absurd hacc (List.not_mem_nil acc)
    · simp only [List.mem_cons, List.mem_singleton, List.not_mem_nil, or_false] at hacc
      exact Or.inl ⟨hacc, by omega, by omega, by omega⟩
    · simp only [List.mem_cons, List.mem_singleton, List.not_mem_nil, or_false,
        or_self] at hacc
      exact Or.inl ⟨hacc, by omega, by omega, by omega⟩
    · simp only [List.mem_cons, List.mem_singleton, List.not_mem_nil, or_false] at hacc
      rcases hacc with h | h | h | h | h
      · exact Or.inl ⟨h, by omega, by omega, by omega⟩
      · exact Or.inl ⟨h, by omega, by omega, by omega⟩
      · exact Or.inl ⟨h, by omega, by omega, by omega⟩
      · exact Or.inr ⟨Or.inr h, by omega, by omega⟩
      · exact Or.inr ⟨Or.inl h, by omega, by omega⟩
    · simp only [List.mem_append, List.mem_cons, List.mem_singleton, List.not_mem_nil,
        or_false] at hacc
      rcases hacc with (h | h | h | h | h) | (h | h | h | h | h | h)
      · exact Or.inl ⟨h, by omega, by omega, by omega⟩
      · exact Or.inl ⟨h, by omega, by omega, by omega⟩
      · exact Or.inl ⟨h, by omega, by omega, by omega⟩
      · exact Or.inr ⟨Or.inr h, by omega, by omega⟩
      · exact Or.inr ⟨Or.inl h, by omega, by omega⟩
      · exact Or.inr ⟨Or.inl h, by omega, by omega⟩
      · exact Or.inl ⟨h, by omega, by omega, by omega⟩
      · exact Or.inr ⟨Or.inl h, by omega, by omega⟩
      · exact Or.inl ⟨h, by omega, by omega, by omega⟩
      · exact Or.inr ⟨Or.inl h, by omega, by omega⟩
      · exact Or.inr ⟨Or.inl h, by omega, by omega⟩
  · intro acc hacc
    unfold sys_process_run_traced at hacc
    cases hl : env.elf_load path with
    | none =>
      rw [hl] at hacc
      exact absurd hacc (List.not_mem_nil acc)
    | some p =>
      rw [hl] at hacc
      simp only [retain_windows_traced, retain_windows_traced_spec, List.mem_map,
        List.mem_range] at hacc
      obtain ⟨i, hi, hacc⟩ := hacc
      exact ⟨i, hacc.symm, by omega, by omega⟩

/-- C20 at a concrete input: a caller with one window out of five, and the
index `wd = -3`. -/
theorem window_accesses_in_bounds_witness :
    (sys_draw_create_traced (exampleEnv simpleCreate) exampleKernel (-3) 5 5 20 10).1
      = sys_draw_create (exampleEnv simpleCreate) exampleKernel (-3) 5 5 20 10 ∧
    (∀ acc, acc ∈ (sys_draw_create_traced (exampleEnv simpleCreate) exampleKernel
        (-3) 5 5 20 10).2 →
      (acc = .read (-3) ∧ (0 : Int) ≤ -3 ∧ -3 < exampleKernel.current.window_count ∧
        -3 < ((exampleEnv simpleCreate).PROCESS_MAX_WINDOWS : Int)) ∨
      ((acc = .read exampleKernel.current.window_count ∨
          acc = .write exampleKernel.current.window_count) ∧
        0 ≤ exampleKernel.current.window_count ∧
        exampleKernel.current.window_count
          < ((exampleEnv simpleCreate).PROCESS_MAX_WINDOWS : Int))) ∧
    (sys_process_run_traced (exampleEnv simpleCreate) exampleKernel [47] [[97]] 1).1
      = sys_process_run (exampleEnv simpleCreate) exampleKernel [47] [[97]] 1 ∧
    (∀ acc, acc ∈ (sys_process_run_traced (exampleEnv simpleCreate) exampleKernel
        [47] [[97]] 1).2 →
      ∃ i : Nat, acc = .read (i : Int) ∧ (i : Int) < exampleKernel.current.window_count ∧
        i < (exampleEnv simpleCreate).PROCESS_MAX_WINDOWS) :=
  window_accesses_in_bounds (exampleEnv simpleCreate) exampleKernel (-3) 5 5 20 10
    [47] [[97]] 1 (by decide)

end Basekernel
